import Mathlib

/-!
# Verification of the partykit-js session / envelope protocol core

Shallow embedding of the partykit-js repository:

* `SessionManager` (packages/partykit-js/src/SessionManager.ts): client
  session lifecycle with grace-period reconnection timers.  JavaScript
  `Map`s become insertion-ordered association lists, `setTimeout` handles
  become explicit `Timer` records carried in the state, and the hook
  callbacks (`onConnected`, `onDisconnected`, `onTimeout`) become an
  emitted event list.
* `PresenceTracker` and the Colyseus room adapter
  `PartyKitColyseusRoom` (packages/trivia-example/src/TriviaRoom.ts and
  the `EnvelopeBuilder`-based variant concatenated into
  packages/trivia-example/src/display-client.ts): handshake state
  machine, message routing, presence and state-snapshot broadcasting.
* The envelope codec (`ProtoJSONCodec` / `ProtoBinaryCodec`,
  src/unnamed/part_001).
-/

namespace PartyKit

/-! ## Insertion-ordered maps (JavaScript `Map` semantics)

A JavaScript `Map` iterates in insertion order; `set` on an existing key
updates in place, `set` on a fresh key appends, `delete` removes. -/

/-- `Map.set`: replace the value of an existing key in place, otherwise
append the new binding at the end (JavaScript `Map` insertion order). -/
def mapSet {α : Type} (m : List (String × α)) (k : String) (v : α) :
    List (String × α) :=
  if m.any (fun p => p.1 == k) then
    m.map (fun p => if p.1 == k then (k, v) else p)
  else
    m ++ [(k, v)]

/-- `Map.delete`: remove the binding of a key. -/
def mapDelete {α : Type} (m : List (String × α)) (k : String) :
    List (String × α) :=
  m.filter (fun p => p.1 != k)

/-! ## Protocol data model (packages/protocol; spec section 3) -/

/-- `ClientContext`: server-authoritative identity record for a
participant.  The `role` enum is represented by its numeric protobuf
value. -/
structure ClientContext where
  clientId : String
  kind : String
  displayName : String
  role : Nat
  capabilities : List String
  groups : List String
  metadata : List (String × String)
  reconnectToken : Option String
deriving DecidableEq, Repr

/-- A context with every field defaulted; used where the source passes
`{} as any` for the context argument. -/
def ClientContext.empty : ClientContext :=
  ⟨"", "", "", 0, [], [], [], none⟩

/-! ## SessionManager (packages/partykit-js/src/SessionManager.ts) -/

/-- `Session<D>` record from packages/partykit-js/src/types.ts
(src/unnamed/part_007). -/
structure Session (D : Type) where
  context : ClientContext
  isConnected : Bool
  disconnectedAt : Option Nat
  data : Option D
deriving DecidableEq, Repr

/-- A pending `setTimeout` handle: owner client id, absolute fire time,
and a unique identity (so that an overwritten-but-never-cleared handle
remains distinguishable, exactly as a leaked JS timer object does). -/
structure Timer where
  id : Nat
  owner : String
  fireAt : Nat
deriving DecidableEq, Repr

/-- `SessionManagerOptions`: reconnection flag and grace period
(defaults `true` and 60000 ms in the constructor). -/
structure SMConfig where
  enableReconnection : Bool
  gracePeriodMs : Nat
deriving DecidableEq, Repr

/-- Mutable state of a `SessionManager`: the `sessions` map, the
`disconnectTimers` map (client id to timer id), the set of scheduled
timers that were neither cleared nor fired yet, a fresh-id counter and
the current wall clock. -/
structure SMState (D : Type) where
  sessions : List (String × Session D)
  disconnectTimers : List (String × Nat)
  liveTimers : List Timer
  nextTimerId : Nat
  now : Nat
deriving DecidableEq, Repr

/-- The state of a freshly constructed `SessionManager`. -/
def SMState.init (D : Type) : SMState D :=
  ⟨[], [], [], 0, 0⟩

/-- Lifecycle hook invocations emitted by `SessionManager` methods. -/
inductive SMHook (D : Type)
  | onConnected (clientId : String) (session : Session D) (isReconnect : Bool)
  | onDisconnected (clientId : String) (session : Session D)
  | onTimeout (clientId : String) (session : Session D)
deriving DecidableEq, Repr

/-- `clearTimeout` on the timer mapped for `clientId` followed by
`disconnectTimers.delete(clientId)` — the cancellation prologue shared
by `connect` and `remove`. -/
def SMState.cancelMappedTimer {D : Type} (s : SMState D) (clientId : String) :
    SMState D :=
  match s.disconnectTimers.lookup clientId with
  | some tid =>
      { s with
        liveTimers := s.liveTimers.filter (fun t => t.id != tid),
        disconnectTimers := mapDelete s.disconnectTimers clientId }
  | none => s

/-- `SessionManager.connect` (SessionManager.ts lines 34–73): register
or reconnect a client session.  Returns the new state, the emitted hook
calls, and the `{ session, isReconnect }` result. -/
def SMState.connect {D : Type} (cfg : SMConfig) (s : SMState D)
    (clientId : String) (context : ClientContext) (initialData : Option D) :
    SMState D × List (SMHook D) × Session D × Bool :=
  let existing := if cfg.enableReconnection then s.sessions.lookup clientId
                  else none
  match existing with
  | some sess =>
      let s1 := s.cancelMappedTimer clientId
      let sess' := { sess with
        isConnected := true, disconnectedAt := none, context := context }
      let s2 := { s1 with sessions := mapSet s1.sessions clientId sess' }
      (s2, [.onConnected clientId sess' true], sess', true)
  | none =>
      let sess : Session D :=
        { context := context, isConnected := true, disconnectedAt := none,
          data := initialData }
      let s2 := { s with sessions := mapSet s.sessions clientId sess }
      (s2, [.onConnected clientId sess false], sess, false)

/-- `SessionManager.disconnect` (lines 81–109): mark disconnected, stamp
`disconnectedAt`, fire `onDisconnected`; with reconnection enabled start
a fresh grace-period timer (note: the `disconnectTimers.set` overwrites
any previous map entry without clearing its timer), otherwise fire
`onTimeout` synchronously and delete the record. -/
def SMState.disconnect {D : Type} (cfg : SMConfig) (s : SMState D)
    (clientId : String) :
    SMState D × List (SMHook D) × Option (Session D) :=
  match s.sessions.lookup clientId with
  | none => (s, [], none)
  | some sess =>
      let sess' := { sess with
        isConnected := false, disconnectedAt := some s.now }
      let s1 := { s with sessions := mapSet s.sessions clientId sess' }
      if cfg.enableReconnection then
        let timer : Timer := ⟨s1.nextTimerId, clientId, s1.now + cfg.gracePeriodMs⟩
        let s2 := { s1 with
          liveTimers := s1.liveTimers ++ [timer],
          disconnectTimers := mapSet s1.disconnectTimers clientId timer.id,
          nextTimerId := s1.nextTimerId + 1 }
        (s2, [.onDisconnected clientId sess'], some sess')
      else
        let s2 := { s1 with sessions := mapDelete s1.sessions clientId }
        (s2, [.onDisconnected clientId sess', .onTimeout clientId sess'],
          some sess')

/-- `SessionManager.get`. -/
def SMState.get {D : Type} (s : SMState D) (clientId : String) :
    Option (Session D) :=
  s.sessions.lookup clientId

/-- `SessionManager.remove` (lines 150–157): cancel the mapped timer and
delete the record without firing `onTimeout`. -/
def SMState.remove {D : Type} (s : SMState D) (clientId : String) :
    SMState D × Bool :=
  let s1 := s.cancelMappedTimer clientId
  ({ s1 with sessions := mapDelete s1.sessions clientId },
    (s1.sessions.lookup clientId).isSome)

/-- `SessionManager.clear` (lines 162–168): clear every timer reachable
from the `disconnectTimers` map, then empty both maps. -/
def SMState.clear {D : Type} (s : SMState D) : SMState D :=
  let ids := s.disconnectTimers.map (·.2)
  { s with
    liveTimers := s.liveTimers.filter (fun t => !(ids.contains t.id)),
    disconnectTimers := [],
    sessions := [] }

/-- The `setTimeout` callback firing: the runtime removes the one-shot
timer from the pending set and runs `handleTimeout` (lines 187–199),
which bails out if the session is already gone and otherwise deletes the
map entry, fires `onTimeout`, and deletes the session. -/
def SMState.fireTimer {D : Type} (s : SMState D) (t : Timer) :
    SMState D × List (SMHook D) :=
  let s1 := { s with liveTimers := s.liveTimers.filter (fun u => u.id != t.id) }
  match s1.sessions.lookup t.owner with
  | none => (s1, [])
  | some sess =>
      ({ s1 with
          disconnectTimers := mapDelete s1.disconnectTimers t.owner,
          sessions := mapDelete s1.sessions t.owner },
        [.onTimeout t.owner sess])

/-- Operations of a `SessionManager` run: the public methods plus the
two environment actions (wall-clock advance, delivery of a due timer). -/
inductive SMOp (D : Type)
  | connect (clientId : String) (context : ClientContext) (initialData : Option D)
  | disconnect (clientId : String)
  | remove (clientId : String)
  | clear
  | advance (d : Nat)
  | fire (tid : Nat)
deriving DecidableEq, Repr

/-- One step of a `SessionManager` run.  A `fire tid` step delivers the
pending timer with identity `tid` provided it is still scheduled and its
deadline has passed; otherwise nothing happens (a cleared timer never
fires, a pending one cannot fire early). -/
def SMState.step {D : Type} (cfg : SMConfig) (s : SMState D) (op : SMOp D) :
    SMState D × List (SMHook D) :=
  match op with
  | .connect c ctx d => let r := s.connect cfg c ctx d; (r.1, r.2.1)
  | .disconnect c => let r := s.disconnect cfg c; (r.1, r.2.1)
  | .remove c => ((s.remove c).1, [])
  | .clear => (s.clear, [])
  | .advance d => ({ s with now := s.now + d }, [])
  | .fire tid =>
      match s.liveTimers.find? (fun t => t.id == tid) with
      | some t => if t.fireAt ≤ s.now then s.fireTimer t else (s, [])
      | none => (s, [])

/-- Run a sequence of operations, accumulating the emitted hook calls. -/
def SMState.run {D : Type} (cfg : SMConfig) (s : SMState D)
    (ops : List (SMOp D)) : SMState D × List (SMHook D) :=
  match ops with
  | [] => (s, [])
  | op :: rest =>
      let r := s.step cfg op
      let r' := r.1.run cfg rest
      (r'.1, r.2 ++ r'.2)

/-- The grace-period timers currently scheduled for a given client. -/
def SMState.ownedTimers {D : Type} (s : SMState D) (clientId : String) :
    List Timer :=
  s.liveTimers.filter (fun t => t.owner == clientId)

end PartyKit

namespace PartyKit

/-! ## Protocol payload messages

The protobuf payload messages, with the fields the repository constructs
and reads.  Enum values keep their protobuf numbering.  `bytes` fields
are lists of naturals. -/

/-- `Hello` (connection_pb): the client claim carried in the handshake. -/
structure Hello where
  kind : String
  name : String
  room : Option String
  reconnectToken : Option String
deriving DecidableEq, Repr

/-- `HelloOk` (connection_pb).  The `EnvelopeBuilder`-based adapter
variant additionally echoes the assigned context in `clientContext`;
the `EnvelopeCodec`-based variant leaves it absent. -/
structure HelloOk where
  serverTime : Nat
  serverName : String
  serverVersion : String
  clientContext : Option ClientContext
deriving DecidableEq, Repr

/-- `RoomJoin` (room_pb): constructed with no fields anywhere in the
repository. -/
structure RoomJoin where
  dummy : Unit := ()
deriving DecidableEq, Repr

/-- `RoomInfo` (room_pb). -/
structure RoomInfoP where
  id : String
  code : String
  type : String
  visibility : Nat
  maxClients : Nat
deriving DecidableEq, Repr

/-- `RoomJoined` (room_pb). -/
structure RoomJoined where
  room : RoomInfoP
deriving DecidableEq, Repr

/-- `GameEvent` (game_pb). -/
structure GameEvent where
  name : String
  payload : List Nat
deriving DecidableEq, Repr

/-- `PresenceKind` (presence_pb). -/
inductive PresenceKind
  | unspecified
  | join
  | leave
deriving DecidableEq, Repr

/-- Protocol `Client` message (presence_pb). -/
structure PClient where
  clientId : String
  displayName : String
  role : Nat
  metadata : List (String × String)
deriving DecidableEq, Repr

/-- `PresenceEvent` (presence_pb). -/
structure PresenceEvent where
  kind : PresenceKind
  client : PClient
deriving DecidableEq, Repr

/-- `Self` (presence_pb). -/
structure SelfMsg where
  clientId : String
  role : Nat
  capabilities : List String
  reconnectToken : String
  groups : List String
deriving DecidableEq, Repr

/-- `Error` (error_pb). -/
structure ErrorMsg where
  code : String
  message : String
  retryable : Bool
  details : List Nat
deriving DecidableEq, Repr

/-- `Ping` (ping_pb). -/
structure Ping where
  nonce : Nat
deriving DecidableEq, Repr

/-- `Pong` (ping_pb). -/
structure Pong where
  serverTime : Nat
deriving DecidableEq, Repr

/-- `StateRequest` (state_pb): constructed with no fields. -/
structure StateRequest where
  dummy : Unit := ()
deriving DecidableEq, Repr

/-- `StateUpdateKind` (state_pb). -/
inductive StateUpdateKind
  | unspecified
  | snapshot
  | patch
deriving DecidableEq, Repr

/-- `StateUpdate` (state_pb): `state` holds the UTF-8 bytes of the
JSON-serialized game snapshot. -/
structure StateUpdate where
  kind : StateUpdateKind
  tick : Nat
  state : List Nat
deriving DecidableEq, Repr

/-- A typed payload packed into the envelope's `google.protobuf.Any`
field.  `anyPack` records the message's type name and `anyUnpack`
succeeds exactly when the requested schema matches it, which the typed
sum captures directly. -/
inductive PMsg
  | hello (m : Hello)
  | helloOk (m : HelloOk)
  | helloError (m : ErrorMsg)
  | roomJoin (m : RoomJoin)
  | roomJoined (m : RoomJoined)
  | gameEvent (m : GameEvent)
  | presence (m : PresenceEvent)
  | selfMsg (m : SelfMsg)
  | error (m : ErrorMsg)
  | ping (m : Ping)
  | pong (m : Pong)
  | stateRequest (m : StateRequest)
  | stateUpdate (m : StateUpdate)
deriving DecidableEq, Repr

/-- `Envelope` (envelope_pb).  The protobuf fields `from` and `to` are
Lean keywords and are embedded as `from_` and `to_`. -/
structure Envelope where
  v : Nat
  t : String
  id : String
  replyTo : String
  ts : Nat
  room : String
  from_ : String
  to_ : String
  data : Option PMsg
deriving DecidableEq, Repr

/-- `unpack(env, HelloSchema)`: `undefined` when the envelope carries no
payload or the payload's type name does not match. -/
def Envelope.unpackHello (e : Envelope) : Option Hello :=
  match e.data with
  | some (.hello m) => some m
  | _ => none

/-- `unpack(env, RoomJoinSchema)`. -/
def Envelope.unpackRoomJoin (e : Envelope) : Option RoomJoin :=
  match e.data with
  | some (.roomJoin m) => some m
  | _ => none

/-- `unpack(env, StateRequestSchema)`. -/
def Envelope.unpackStateRequest (e : Envelope) : Option StateRequest :=
  match e.data with
  | some (.stateRequest m) => some m
  | _ => none

/-- `unpack(env, PingSchema)`. -/
def Envelope.unpackPing (e : Envelope) : Option Ping :=
  match e.data with
  | some (.ping m) => some m
  | _ => none

/-- `unpack(env, GameEventSchema)`. -/
def Envelope.unpackGameEvent (e : Envelope) : Option GameEvent :=
  match e.data with
  | some (.gameEvent m) => some m
  | _ => none

/-! ## PresenceTracker (packages/colyseus/src/PresenceTracker.ts,
src/unnamed/part_010) -/

/-- A Colyseus transport connection, identified by its session id. -/
structure Client where
  sessionId : String
deriving DecidableEq, Repr

/-- `PresenceTracker`: context keyed by transport-level session id. -/
structure PresenceTracker where
  ctxBySessionId : List (String × ClientContext)
deriving DecidableEq, Repr

/-- `PresenceTracker.set`. -/
def PresenceTracker.set (p : PresenceTracker) (sessionId : String)
    (ctx : ClientContext) : PresenceTracker :=
  ⟨mapSet p.ctxBySessionId sessionId ctx⟩

/-- `PresenceTracker.delete`. -/
def PresenceTracker.delete (p : PresenceTracker) (sessionId : String) :
    PresenceTracker :=
  ⟨mapDelete p.ctxBySessionId sessionId⟩

/-- `PresenceTracker.get`. -/
def PresenceTracker.get (p : PresenceTracker) (sessionId : String) :
    Option ClientContext :=
  p.ctxBySessionId.lookup sessionId

/-- `PresenceTracker.list`. -/
def PresenceTracker.list (p : PresenceTracker) : List ClientContext :=
  p.ctxBySessionId.map (·.2)

/-- `PresenceTracker.toProtoClient`. -/
def PresenceTracker.toProtoClient (ctx : ClientContext) : PClient :=
  ⟨ctx.clientId, ctx.displayName, ctx.role, ctx.metadata⟩

/-- `PresenceTracker.onJoin`: store the context and build a JOIN
event. -/
def PresenceTracker.onJoin (p : PresenceTracker) (client : Client)
    (ctx : ClientContext) : PresenceTracker × PresenceEvent :=
  (p.set client.sessionId ctx, ⟨.join, PresenceTracker.toProtoClient ctx⟩)

/-- `PresenceTracker.onLeave` (src/unnamed/part_010 lines 43–52): `null`
when no context is tracked, otherwise remove it and build a LEAVE
event. -/
def PresenceTracker.onLeave (p : PresenceTracker) (client : Client) :
    PresenceTracker × Option PresenceEvent :=
  match p.get client.sessionId with
  | none => (p, none)
  | some ctx =>
      (p.delete client.sessionId,
        some ⟨.leave, PresenceTracker.toProtoClient ctx⟩)

/-! ## Room adapter (PartyKitColyseusRoom, concatenated into
packages/trivia-example/src/TriviaRoom.ts) -/

/-- Result of the `authorizeHello` game hook. -/
inductive PartyKitAuthResult
  | ok (context : ClientContext)
  | err (code : String) (message : String) (retryable : Option Bool)
deriving DecidableEq, Repr

/-- The game-defined hooks the abstract room calls.  `getStateSnapshot`
already includes `JSON.stringify` plus UTF-8 encoding; an
`onPartyKitGameEvent` rejection (a thrown error) is an `Except.error`
carrying the error message. -/
structure GameHooks where
  authorizeHello : Client → Hello → PartyKitAuthResult
  onPartyKitGameEvent : ClientContext → GameEvent → Except String Unit
  getStateSnapshot : ClientContext → List Nat

/-- Observable actions of the room adapter, in program order: a
`client.send`, a broadcast of one envelope to a recipient list, and the
invocations of the game hooks `onPartyKitJoin` / `onPartyKitGameEvent`. -/
inductive REvent
  | sent (toSession : String) (msgType : String) (env : Envelope)
  | bcast (recipients : List String) (msgType : String) (env : Envelope)
  | joinHook (sessionId : String) (ctx : ClientContext) (join : RoomJoin)
  | gameHook (sessionId : String) (ctx : ClientContext) (ev : GameEvent)
deriving DecidableEq, Repr

/-- Room adapter state: presence map, currently connected Colyseus
clients, snapshot tick, room metadata, a counter supplying fresh message
ids (`generateMessageId`), and the server clock. -/
structure RoomState where
  presence : PresenceTracker
  clients : List Client
  tick : Nat
  partyRoomInfo : RoomInfoP
  nextMsgId : Nat
  now : Nat
deriving DecidableEq, Repr

/-- `generateMessageId`, modelled by a deterministic fresh-id supply. -/
def genMessageId (n : Nat) : String :=
  "m" ++ toString n

/-- `sendEnvelope` (TriviaRoom.ts lines 503–527): build an envelope with
defaults `replyTo=""`, `from="server"`, `to=client.sessionId` and send
it to the one client. -/
def RoomState.sendEnvelope (room : RoomState) (client : Client)
    (msgType : String) (payload : PMsg)
    (replyTo to_ from_ : Option String) : RoomState × REvent :=
  let env : Envelope :=
    { v := 1, t := msgType, id := genMessageId room.nextMsgId,
      replyTo := replyTo.getD "", ts := room.now,
      room := room.partyRoomInfo.id,
      from_ := from_.getD "server",
      to_ := to_.getD client.sessionId,
      data := some payload }
  ({ room with nextMsgId := room.nextMsgId + 1 },
    .sent client.sessionId msgType env)

/-- `broadcastEnvelope` (lines 529–559): build one envelope; with an
`except` client, send it to every connected client with a different
session id, otherwise to all connected clients. -/
def RoomState.broadcastEnvelope (room : RoomState) (msgType : String)
    (payload : PMsg) (to_ from_ : Option String) (except : Option Client) :
    RoomState × REvent :=
  let env : Envelope :=
    { v := 1, t := msgType, id := genMessageId room.nextMsgId,
      replyTo := "", ts := room.now,
      room := room.partyRoomInfo.id,
      from_ := from_.getD "server",
      to_ := to_.getD "broadcast",
      data := some payload }
  let recipients :=
    match except with
    | some x =>
        (room.clients.filter (fun c => c.sessionId != x.sessionId)).map
          (·.sessionId)
    | none => room.clients.map (·.sessionId)
  ({ room with nextMsgId := room.nextMsgId + 1 },
    .bcast recipients msgType env)

/-- `sendError` (lines 561–580): an error envelope correlated to the
offending request via `replyTo`; `details` is always emitted empty. -/
def RoomState.sendError (room : RoomState) (client : Client)
    (requestEnv : Envelope) (code message : String) (retryable : Bool) :
    RoomState × REvent :=
  room.sendEnvelope client "partykit/error"
    (.error ⟨code, message, retryable, []⟩) (some requestEnv.id) none none

/-- `sendStateSnapshotTo` (lines 586–605): obtain the snapshot from the
game hook, increment `tick`, and send a SNAPSHOT `StateUpdate` carrying
the new tick. -/
def RoomState.sendStateSnapshotTo (hooks : GameHooks) (room : RoomState)
    (client : Client) (ctx : ClientContext) (replyTo : Option String) :
    RoomState × REvent :=
  let snapshot := hooks.getStateSnapshot ctx
  let room1 := { room with tick := room.tick + 1 }
  room1.sendEnvelope client "partykit/state"
    (.stateUpdate ⟨.snapshot, room1.tick, snapshot⟩) replyTo none none

/-- `broadcastStateUpdate` (trivia game subclass, src/unnamed/part_006
lines 418–435): the explicit snapshot broadcast — increment `tick`, get
a snapshot (the context argument is passed as `{}`), broadcast one
SNAPSHOT `StateUpdate` to every client. -/
def RoomState.broadcastStateUpdate (hooks : GameHooks) (room : RoomState) :
    RoomState × REvent :=
  let room1 := { room with tick := room.tick + 1 }
  let snapshot := hooks.getStateSnapshot ClientContext.empty
  room1.broadcastEnvelope "partykit/state"
    (.stateUpdate ⟨.snapshot, room1.tick, snapshot⟩) none none none

/-- `handleHello` (lines 291–329): unpack failure yields `BAD_REQUEST`;
an authorization rejection is forwarded; on success the context is
tracked under the transport session id and `hello.ok` is sent,
correlated via `replyTo`. -/
def RoomState.handleHello (hooks : GameHooks) (room : RoomState)
    (client : Client) (env : Envelope) : RoomState × List REvent :=
  match env.unpackHello with
  | none =>
      let r := room.sendError client env "BAD_REQUEST"
        "Invalid hello message." false
      (r.1, [r.2])
  | some hello =>
      match hooks.authorizeHello client hello with
      | .err code message retryable =>
          let r := room.sendError client env code message
            (retryable.getD false)
          (r.1, [r.2])
      | .ok ctx =>
          let room1 :=
            { room with presence := room.presence.set client.sessionId ctx }
          let ok : HelloOk := ⟨room1.now, "partykit-colyseus", "0.1.0", none⟩
          let r := room1.sendEnvelope client "partykit/hello/ok"
            (.helloOk ok) (some env.id) none none
          (r.1, [r.2])

/-- The catch-up burst of `handleRoomJoin` (lines 383–396): one
`presence(JOIN)` send to the joining client per other tracked context. -/
def RoomState.sendCatchupPresence (room : RoomState) (client : Client)
    (ctx : ClientContext) :
    List ClientContext → RoomState × List REvent
  | [] => (room, [])
  | existing :: rest =>
      if existing.clientId == ctx.clientId then
        room.sendCatchupPresence client ctx rest
      else
        let ev : PresenceEvent :=
          ⟨.join, ⟨existing.clientId, existing.displayName, existing.role,
            existing.metadata⟩⟩
        let r := room.sendEnvelope client "partykit/presence"
          (.presence ev) none none none
        let r' := r.1.sendCatchupPresence client ctx rest
        (r'.1, r.2 :: r'.2)

/-- `handleRoomJoin` (lines 331–411): `BAD_REQUEST` on unpack failure;
`UNAUTHORIZED` when no context is tracked (no prior hello); otherwise
`room.joined` (correlated), `self`, the catch-up burst, a broadcast
`presence(JOIN)` excluding the joiner, the state snapshot, and finally
the `onPartyKitJoin` hook. -/
def RoomState.handleRoomJoin (hooks : GameHooks) (room : RoomState)
    (client : Client) (env : Envelope) : RoomState × List REvent :=
  match env.unpackRoomJoin with
  | none =>
      let r := room.sendError client env "BAD_REQUEST"
        "Invalid room join message." false
      (r.1, [r.2])
  | some join =>
      match room.presence.get client.sessionId with
      | none =>
          let r := room.sendError client env "UNAUTHORIZED"
            "Must send partykit/hello before joining." false
          (r.1, [r.2])
      | some ctx =>
          let r1 := room.sendEnvelope client "partykit/room/joined"
            (.roomJoined ⟨room.partyRoomInfo⟩) (some env.id) none none
          let selfMsg : SelfMsg :=
            ⟨ctx.clientId, ctx.role, ctx.capabilities,
              ctx.reconnectToken.getD "", ctx.groups⟩
          let r2 := r1.1.sendEnvelope client "partykit/self"
            (.selfMsg selfMsg) none none none
          let r3 := r2.1.sendCatchupPresence client ctx r2.1.presence.list
          let pr := r3.1.presence.onJoin client ctx
          let room4 := { r3.1 with presence := pr.1 }
          let r5 := room4.broadcastEnvelope "partykit/presence"
            (.presence pr.2) (some "broadcast") (some "server") (some client)
          let r6 := r5.1.sendStateSnapshotTo hooks client ctx none
          (r6.1,
            r1.2 :: r2.2 ::
              (r3.2 ++ [r5.2, r6.2, .joinHook client.sessionId ctx join]))

/-- `handleStateRequest` (lines 413–440). -/
def RoomState.handleStateRequest (hooks : GameHooks) (room : RoomState)
    (client : Client) (env : Envelope) : RoomState × List REvent :=
  match env.unpackStateRequest with
  | none =>
      let r := room.sendError client env "BAD_REQUEST"
        "Invalid state request message." false
      (r.1, [r.2])
  | some _ =>
      match room.presence.get client.sessionId with
      | none =>
          let r := room.sendError client env "UNAUTHORIZED"
            "Must be joined to request state." false
          (r.1, [r.2])
      | some ctx =>
          let r := room.sendStateSnapshotTo hooks client ctx (some env.id)
          (r.1, [r.2])

/-- `handlePing` (lines 442–458). -/
def RoomState.handlePing (room : RoomState) (client : Client)
    (env : Envelope) : RoomState × List REvent :=
  match env.unpackPing with
  | none =>
      let r := room.sendError client env "BAD_REQUEST"
        "Invalid ping message." false
      (r.1, [r.2])
  | some _ =>
      let r := room.sendEnvelope client "partykit/pong"
        (.pong ⟨room.now⟩) (some env.id) none none
      (r.1, [r.2])

/-- `handleGameEvent` (lines 460–497): `BAD_REQUEST` on unpack failure;
`UNAUTHORIZED` when no context is tracked; otherwise the
`onPartyKitGameEvent` hook runs and a thrown hook error is caught and
converted into a single `INTERNAL`, retryable error envelope back to the
sender (the handler itself always returns normally). -/
def RoomState.handleGameEvent (hooks : GameHooks) (room : RoomState)
    (client : Client) (env : Envelope) : RoomState × List REvent :=
  match env.unpackGameEvent with
  | none =>
      let r := room.sendError client env "BAD_REQUEST"
        "Invalid game event message." false
      (r.1, [r.2])
  | some ev =>
      match room.presence.get client.sessionId with
      | none =>
          let r := room.sendError client env "UNAUTHORIZED"
            "Must be joined to send game events." false
          (r.1, [r.2])
      | some ctx =>
          match hooks.onPartyKitGameEvent ctx ev with
          | .ok _ => (room, [.gameHook client.sessionId ctx ev])
          | .error msg =>
              let r := room.sendError client env "INTERNAL" msg true
              (r.1, [.gameHook client.sessionId ctx ev, r.2])

/-- `onLeave` (lines 224–233): `PresenceTracker.onLeave`; a LEAVE event,
when produced, is broadcast to all connected clients.  The leaving
client is assumed already removed from `clients` by the transport. -/
def RoomState.onLeave (room : RoomState) (client : Client) :
    RoomState × List REvent :=
  let r := room.presence.onLeave client
  let room1 := { room with presence := r.1 }
  match r.2 with
  | none => (room1, [])
  | some ev =>
      let b := room1.broadcastEnvelope "partykit/presence"
        (.presence ev) (some "broadcast") (some "server") none
      (b.1, [b.2])

/-- The message types the adapter registers in `onCreate`. -/
inductive MsgType
  | hello
  | roomJoin
  | stateRequest
  | ping
  | gameEvent
deriving DecidableEq, Repr

/-- Whether the envelope's payload unpacks to the type expected by the
handler registered for the given message type. -/
def MsgType.unpackOk : MsgType → Envelope → Bool
  | .hello, env => env.unpackHello.isSome
  | .roomJoin, env => env.unpackRoomJoin.isSome
  | .stateRequest, env => env.unpackStateRequest.isSome
  | .ping, env => env.unpackPing.isSome
  | .gameEvent, env => env.unpackGameEvent.isSome

/-- Dispatch of a decoded envelope to the registered handler. -/
def RoomState.handleMessage (hooks : GameHooks) (room : RoomState)
    (client : Client) : MsgType → Envelope → RoomState × List REvent
  | .hello, env => room.handleHello hooks client env
  | .roomJoin, env => room.handleRoomJoin hooks client env
  | .stateRequest, env => room.handleStateRequest hooks client env
  | .ping, env => room.handlePing client env
  | .gameEvent, env => room.handleGameEvent hooks client env

/-- An externally triggered room action: an incoming envelope, a
transport-level leave, or the game's explicit snapshot broadcast. -/
inductive RoomOp
  | msg (client : Client) (mtype : MsgType) (env : Envelope)
  | leave (client : Client)
  | broadcastState
deriving DecidableEq, Repr

/-- One room step. -/
def RoomState.stepRoom (hooks : GameHooks) (room : RoomState) :
    RoomOp → RoomState × List REvent
  | .msg client mtype env => room.handleMessage hooks client mtype env
  | .leave client => room.onLeave client
  | .broadcastState =>
      let r := room.broadcastStateUpdate hooks
      (r.1, [r.2])

/-- Run a sequence of room actions, concatenating the emitted events. -/
def RoomState.runRoom (hooks : GameHooks) (room : RoomState) :
    List RoomOp → RoomState × List REvent
  | [] => (room, [])
  | op :: rest =>
      let r := room.stepRoom hooks op
      let r' := r.1.runRoom hooks rest
      (r'.1, r.2 ++ r'.2)

/-- The tick carried by a state-update envelope emitted in an event
(empty for any other event). -/
def REvent.stateTicks : REvent → List Nat
  | .sent _ _ env =>
      match env.data with
      | some (.stateUpdate su) => [su.tick]
      | _ => []
  | .bcast _ _ env =>
      match env.data with
      | some (.stateUpdate su) => [su.tick]
      | _ => []
  | _ => []

/-- The ticks of all snapshot emissions in an event trace, in order
(a broadcast is a single emission). -/
def snapTicks (evs : List REvent) : List Nat :=
  (evs.map REvent.stateTicks).flatten

/-- The error code carried by an error envelope sent in an event. -/
def REvent.errorCode : REvent → Option String
  | .sent _ _ env =>
      match env.data with
      | some (.error m) => some m.code
      | _ => none
  | .bcast _ _ env =>
      match env.data with
      | some (.error m) => some m.code
      | _ => none
  | _ => none

/-- Whether an event is an `onPartyKitGameEvent` hook invocation. -/
def REvent.isGameHook : REvent → Bool
  | .gameHook _ _ _ => true
  | _ => false

end PartyKit

namespace PartyKit

/-! ## Envelope codec (src/unnamed/part_001)

`ProtoJSONCodec` and `ProtoBinaryCodec` delegate to the protobuf
library's `toJson`/`fromJson` and `toBinary`/`fromBinary` on the
`Envelope` schema.  Modelled from the spec: the `.proto` definitions and
the serializers live outside `src/`, so the two wire forms are embedded
as executable codecs over the envelope structure — a JSON tree (the
human-readable form, payload carried as a typed `@type`-tagged object)
and a byte list (the compact binary form, fields in declaration order,
naturals as base-128 varints, strings length-prefixed).  Decoders are
total functions returning `Option`. -/

/-- A JSON value. -/
inductive Json
  | null
  | bool (b : Bool)
  | num (n : Nat)
  | str (s : String)
  | arr (xs : List Json)
  | obj (fields : List (String × Json))

/-- JSON form of an optional string (`null` when absent). -/
def optStrToJson : Option String → Json
  | none => .null
  | some s => .str s

/-- Parse an optional string. -/
def jsonToOptStr : Json → Option (Option String)
  | .null => some none
  | .str s => some (some s)
  | _ => none

/-- JSON form of a string list. -/
def strListToJson (l : List String) : Json :=
  .arr (l.map .str)

/-- Parse a list of JSON strings. -/
def jsonStrs : List Json → Option (List String)
  | [] => some []
  | .str s :: rest =>
      match jsonStrs rest with
      | some l => some (s :: l)
      | none => none
  | _ => none

/-- Parse a string list. -/
def jsonToStrList : Json → Option (List String)
  | .arr xs => jsonStrs xs
  | _ => none

/-- JSON form of a string-to-string map. -/
def metaToJson (l : List (String × String)) : Json :=
  .obj (l.map fun p => (p.1, .str p.2))

/-- Parse the fields of a string-to-string map. -/
def jsonMetaFields : List (String × Json) → Option (List (String × String))
  | [] => some []
  | (k, .str v) :: rest =>
      match jsonMetaFields rest with
      | some l => some ((k, v) :: l)
      | none => none
  | _ => none

/-- Parse a string-to-string map. -/
def jsonToMeta : Json → Option (List (String × String))
  | .obj fs => jsonMetaFields fs
  | _ => none

/-- JSON form of a bytes field. -/
def bytesToJson (l : List Nat) : Json :=
  .arr (l.map .num)

/-- Parse a list of JSON numbers. -/
def jsonNums : List Json → Option (List Nat)
  | [] => some []
  | .num n :: rest =>
      match jsonNums rest with
      | some l => some (n :: l)
      | none => none
  | _ => none

/-- Parse a bytes field. -/
def jsonToBytes : Json → Option (List Nat)
  | .arr xs => jsonNums xs
  | _ => none

/-- JSON form of a `ClientContext`. -/
def ClientContext.toJson (c : ClientContext) : Json :=
  .obj [("clientId", .str c.clientId), ("kind", .str c.kind),
    ("displayName", .str c.displayName), ("role", .num c.role),
    ("capabilities", strListToJson c.capabilities),
    ("groups", strListToJson c.groups),
    ("metadata", metaToJson c.metadata),
    ("reconnectToken", optStrToJson c.reconnectToken)]

/-- Parse a `ClientContext`. -/
def ClientContext.fromJson : Json → Option ClientContext
  | .obj [("clientId", .str a), ("kind", .str b), ("displayName", .str c),
      ("role", .num d), ("capabilities", caps), ("groups", gs),
      ("metadata", md), ("reconnectToken", rt)] =>
      match jsonToStrList caps, jsonToStrList gs, jsonToMeta md,
          jsonToOptStr rt with
      | some caps', some gs', some md', some rt' =>
          some ⟨a, b, c, d, caps', gs', md', rt'⟩
      | _, _, _, _ => none
  | _ => none

/-- JSON form of an optional `ClientContext`. -/
def optCtxToJson : Option ClientContext → Json
  | none => .null
  | some c => c.toJson

/-- Parse an optional `ClientContext`. -/
def jsonToOptCtx : Json → Option (Option ClientContext)
  | .null => some none
  | j => (ClientContext.fromJson j).map some

/-- JSON form of `Hello`. -/
def Hello.toJson (m : Hello) : Json :=
  .obj [("kind", .str m.kind), ("name", .str m.name),
    ("room", optStrToJson m.room),
    ("reconnectToken", optStrToJson m.reconnectToken)]

/-- Parse `Hello`. -/
def Hello.fromJson : Json → Option Hello
  | .obj [("kind", .str k), ("name", .str n), ("room", r),
      ("reconnectToken", t)] =>
      match jsonToOptStr r, jsonToOptStr t with
      | some r', some t' => some ⟨k, n, r', t'⟩
      | _, _ => none
  | _ => none

/-- JSON form of `HelloOk`. -/
def HelloOk.toJson (m : HelloOk) : Json :=
  .obj [("serverTime", .num m.serverTime), ("serverName", .str m.serverName),
    ("serverVersion", .str m.serverVersion),
    ("clientContext", optCtxToJson m.clientContext)]

/-- Parse `HelloOk`. -/
def HelloOk.fromJson : Json → Option HelloOk
  | .obj [("serverTime", .num t), ("serverName", .str n),
      ("serverVersion", .str v), ("clientContext", c)] =>
      match jsonToOptCtx c with
      | some c' => some ⟨t, n, v, c'⟩
      | none => none
  | _ => none

/-- JSON form of `RoomJoin`. -/
def RoomJoin.toJson (_ : RoomJoin) : Json :=
  .obj []

/-- Parse `RoomJoin`. -/
def RoomJoin.fromJson : Json → Option RoomJoin
  | .obj [] => some ⟨()⟩
  | _ => none

/-- JSON form of `RoomInfo`. -/
def RoomInfoP.toJson (m : RoomInfoP) : Json :=
  .obj [("id", .str m.id), ("code", .str m.code), ("type", .str m.type),
    ("visibility", .num m.visibility), ("maxClients", .num m.maxClients)]

/-- Parse `RoomInfo`. -/
def RoomInfoP.fromJson : Json → Option RoomInfoP
  | .obj [("id", .str i), ("code", .str c), ("type", .str t),
      ("visibility", .num vis), ("maxClients", .num mc)] =>
      some ⟨i, c, t, vis, mc⟩
  | _ => none

/-- JSON form of `RoomJoined`. -/
def RoomJoined.toJson (m : RoomJoined) : Json :=
  .obj [("room", m.room.toJson)]

/-- Parse `RoomJoined`. -/
def RoomJoined.fromJson : Json → Option RoomJoined
  | .obj [("room", r)] => (RoomInfoP.fromJson r).map (⟨·⟩)
  | _ => none

/-- JSON form of `GameEvent`. -/
def GameEvent.toJson (m : GameEvent) : Json :=
  .obj [("name", .str m.name), ("payload", bytesToJson m.payload)]

/-- Parse `GameEvent`. -/
def GameEvent.fromJson : Json → Option GameEvent
  | .obj [("name", .str n), ("payload", p)] =>
      (jsonToBytes p).map (⟨n, ·⟩)
  | _ => none

/-- Numeric value of a `PresenceKind`. -/
def PresenceKind.toNat : PresenceKind → Nat
  | .unspecified => 0
  | .join => 1
  | .leave => 2

/-- Parse a `PresenceKind` value. -/
def PresenceKind.fromNat : Nat → Option PresenceKind
  | 0 => some .unspecified
  | 1 => some .join
  | 2 => some .leave
  | _ => none

/-- JSON form of the protocol `Client` message. -/
def PClient.toJson (m : PClient) : Json :=
  .obj [("clientId", .str m.clientId), ("displayName", .str m.displayName),
    ("role", .num m.role), ("metadata", metaToJson m.metadata)]

/-- Parse a protocol `Client` message. -/
def PClient.fromJson : Json → Option PClient
  | .obj [("clientId", .str c), ("displayName", .str d), ("role", .num r),
      ("metadata", md)] =>
      (jsonToMeta md).map (⟨c, d, r, ·⟩)
  | _ => none

/-- JSON form of `PresenceEvent`. -/
def PresenceEvent.toJson (m : PresenceEvent) : Json :=
  .obj [("kind", .num m.kind.toNat), ("client", m.client.toJson)]

/-- Parse `PresenceEvent`. -/
def PresenceEvent.fromJson : Json → Option PresenceEvent
  | .obj [("kind", .num k), ("client", c)] =>
      match PresenceKind.fromNat k, PClient.fromJson c with
      | some k', some c' => some ⟨k', c'⟩
      | _, _ => none
  | _ => none

/-- JSON form of `Self`. -/
def SelfMsg.toJson (m : SelfMsg) : Json :=
  .obj [("clientId", .str m.clientId), ("role", .num m.role),
    ("capabilities", strListToJson m.capabilities),
    ("reconnectToken", .str m.reconnectToken),
    ("groups", strListToJson m.groups)]

/-- Parse `Self`. -/
def SelfMsg.fromJson : Json → Option SelfMsg
  | .obj [("clientId", .str c), ("role", .num r), ("capabilities", caps),
      ("reconnectToken", .str t), ("groups", gs)] =>
      match jsonToStrList caps, jsonToStrList gs with
      | some caps', some gs' => some ⟨c, r, caps', t, gs'⟩
      | _, _ => none
  | _ => none

/-- JSON form of `Error`. -/
def ErrorMsg.toJson (m : ErrorMsg) : Json :=
  .obj [("code", .str m.code), ("message", .str m.message),
    ("retryable", .bool m.retryable), ("details", bytesToJson m.details)]

/-- Parse `Error`. -/
def ErrorMsg.fromJson : Json → Option ErrorMsg
  | .obj [("code", .str c), ("message", .str m), ("retryable", .bool r),
      ("details", d)] =>
      (jsonToBytes d).map (⟨c, m, r, ·⟩)
  | _ => none

/-- JSON form of `Ping`. -/
def Ping.toJson (m : Ping) : Json :=
  .obj [("nonce", .num m.nonce)]

/-- Parse `Ping`. -/
def Ping.fromJson : Json → Option Ping
  | .obj [("nonce", .num n)] => some ⟨n⟩
  | _ => none

/-- JSON form of `Pong`. -/
def Pong.toJson (m : Pong) : Json :=
  .obj [("serverTime", .num m.serverTime)]

/-- Parse `Pong`. -/
def Pong.fromJson : Json → Option Pong
  | .obj [("serverTime", .num n)] => some ⟨n⟩
  | _ => none

/-- JSON form of `StateRequest`. -/
def StateRequest.toJson (_ : StateRequest) : Json :=
  .obj []

/-- Parse `StateRequest`. -/
def StateRequest.fromJson : Json → Option StateRequest
  | .obj [] => some ⟨()⟩
  | _ => none

/-- Numeric value of a `StateUpdateKind`. -/
def StateUpdateKind.toNat : StateUpdateKind → Nat
  | .unspecified => 0
  | .snapshot => 1
  | .patch => 2

/-- Parse a `StateUpdateKind` value. -/
def StateUpdateKind.fromNat : Nat → Option StateUpdateKind
  | 0 => some .unspecified
  | 1 => some .snapshot
  | 2 => some .patch
  | _ => none

/-- JSON form of `StateUpdate`. -/
def StateUpdate.toJson (m : StateUpdate) : Json :=
  .obj [("kind", .num m.kind.toNat), ("tick", .num m.tick),
    ("state", bytesToJson m.state)]

/-- Parse `StateUpdate`. -/
def StateUpdate.fromJson : Json → Option StateUpdate
  | .obj [("kind", .num k), ("tick", .num t), ("state", s)] =>
      match StateUpdateKind.fromNat k, jsonToBytes s with
      | some k', some s' => some ⟨k', t, s'⟩
      | _, _ => none
  | _ => none

/-- The `google.protobuf.Any` type URL recorded by `anyPack`. -/
def PMsg.typeUrl : PMsg → String
  | .hello _ => "type.googleapis.com/partykit.v1.Hello"
  | .helloOk _ => "type.googleapis.com/partykit.v1.HelloOk"
  | .helloError _ => "type.googleapis.com/partykit.v1.HelloError"
  | .roomJoin _ => "type.googleapis.com/partykit.v1.RoomJoin"
  | .roomJoined _ => "type.googleapis.com/partykit.v1.RoomJoined"
  | .gameEvent _ => "type.googleapis.com/partykit.v1.GameEvent"
  | .presence _ => "type.googleapis.com/partykit.v1.PresenceEvent"
  | .selfMsg _ => "type.googleapis.com/partykit.v1.Self"
  | .error _ => "type.googleapis.com/partykit.v1.Error"
  | .ping _ => "type.googleapis.com/partykit.v1.Ping"
  | .pong _ => "type.googleapis.com/partykit.v1.Pong"
  | .stateRequest _ => "type.googleapis.com/partykit.v1.StateRequest"
  | .stateUpdate _ => "type.googleapis.com/partykit.v1.StateUpdate"

/-- JSON fields of a packed payload. -/
def PMsg.fieldsToJson : PMsg → Json
  | .hello m => m.toJson
  | .helloOk m => m.toJson
  | .helloError m => m.toJson
  | .roomJoin m => m.toJson
  | .roomJoined m => m.toJson
  | .gameEvent m => m.toJson
  | .presence m => m.toJson
  | .selfMsg m => m.toJson
  | .error m => m.toJson
  | .ping m => m.toJson
  | .pong m => m.toJson
  | .stateRequest m => m.toJson
  | .stateUpdate m => m.toJson

/-- JSON form of a packed `Any`: the type URL plus the message fields. -/
def anyToJson (m : PMsg) : Json :=
  .obj [("@type", .str m.typeUrl), ("value", m.fieldsToJson)]

/-- Parse a packed `Any`: the registry dispatch on the type URL. -/
def anyFromJson : Json → Option PMsg
  | .obj [("@type", .str u), ("value", v)] =>
      if u = "type.googleapis.com/partykit.v1.Hello" then
        (Hello.fromJson v).map .hello
      else if u = "type.googleapis.com/partykit.v1.HelloOk" then
        (HelloOk.fromJson v).map .helloOk
      else if u = "type.googleapis.com/partykit.v1.HelloError" then
        (ErrorMsg.fromJson v).map .helloError
      else if u = "type.googleapis.com/partykit.v1.RoomJoin" then
        (RoomJoin.fromJson v).map .roomJoin
      else if u = "type.googleapis.com/partykit.v1.RoomJoined" then
        (RoomJoined.fromJson v).map .roomJoined
      else if u = "type.googleapis.com/partykit.v1.GameEvent" then
        (GameEvent.fromJson v).map .gameEvent
      else if u = "type.googleapis.com/partykit.v1.PresenceEvent" then
        (PresenceEvent.fromJson v).map .presence
      else if u = "type.googleapis.com/partykit.v1.Self" then
        (SelfMsg.fromJson v).map .selfMsg
      else if u = "type.googleapis.com/partykit.v1.Error" then
        (ErrorMsg.fromJson v).map .error
      else if u = "type.googleapis.com/partykit.v1.Ping" then
        (Ping.fromJson v).map .ping
      else if u = "type.googleapis.com/partykit.v1.Pong" then
        (Pong.fromJson v).map .pong
      else if u = "type.googleapis.com/partykit.v1.StateRequest" then
        (StateRequest.fromJson v).map .stateRequest
      else if u = "type.googleapis.com/partykit.v1.StateUpdate" then
        (StateUpdate.fromJson v).map .stateUpdate
      else none
  | _ => none

/-- `ProtoJSONCodec.encode`: the JSON form of an envelope. -/
def ProtoJSONCodec.encode (e : Envelope) : Json :=
  .obj [("v", .num e.v), ("t", .str e.t), ("id", .str e.id),
    ("replyTo", .str e.replyTo), ("ts", .num e.ts), ("room", .str e.room),
    ("from", .str e.from_), ("to", .str e.to_),
    ("data", match e.data with
      | none => .null
      | some m => anyToJson m)]

/-- `ProtoJSONCodec.decode`. -/
def ProtoJSONCodec.decode : Json → Option Envelope
  | .obj [("v", .num v), ("t", .str t), ("id", .str i),
      ("replyTo", .str rt), ("ts", .num ts), ("room", .str rm),
      ("from", .str f), ("to", .str target), ("data", d)] =>
      match d with
      | .null => some ⟨v, t, i, rt, ts, rm, f, target, none⟩
      | j =>
          match anyFromJson j with
          | some m => some ⟨v, t, i, rt, ts, rm, f, target, some m⟩
          | none => none
  | _ => none

end PartyKit

namespace PartyKit

/-! ### Binary form (`ProtoBinaryCodec`) -/

/-- Base-128 varint encoding of a natural (low groups first). -/
def encodeVarint (n : Nat) : List Nat :=
  if h : n < 128 then [n]
  else (n % 128 + 128) :: encodeVarint (n / 128)
decreasing_by exact Nat.div_lt_self (by omega) (by omega)

/-- Varint decoding; returns the value and the remaining bytes. -/
def decodeVarint : List Nat → Option (Nat × List Nat)
  | [] => none
  | b :: rest =>
      if b < 128 then some (b, rest)
      else
        match decodeVarint rest with
        | some (n, rest') => some (n * 128 + (b - 128), rest')
        | none => none

/-- Characters of a string as codepoint varints. -/
def encodeChars (cs : List Char) : List Nat :=
  (cs.map (fun c => encodeVarint c.toNat)).flatten

/-- Decode a known number of codepoints. -/
def decodeChars : Nat → List Nat → Option (List Char × List Nat)
  | 0, rest => some ([], rest)
  | k + 1, rest =>
      match decodeVarint rest with
      | none => none
      | some (c, rest') =>
          match decodeChars k rest' with
          | none => none
          | some (cs, rest'') => some (Char.ofNat c :: cs, rest'')

/-- Length-prefixed string. -/
def encodeString (s : String) : List Nat :=
  encodeVarint s.data.length ++ encodeChars s.data

/-- Decode a length-prefixed string. -/
def decodeString (l : List Nat) : Option (String × List Nat) :=
  match decodeVarint l with
  | none => none
  | some (k, rest) =>
      match decodeChars k rest with
      | none => none
      | some (cs, rest') => some (String.mk cs, rest')

/-- One-byte boolean. -/
def encodeBool (b : Bool) : List Nat :=
  [if b then 1 else 0]

/-- Decode a boolean byte. -/
def decodeBool : List Nat → Option (Bool × List Nat)
  | 0 :: rest => some (false, rest)
  | 1 :: rest => some (true, rest)
  | _ => none

/-- Length-prefixed bytes field. -/
def encodeBytes (l : List Nat) : List Nat :=
  encodeVarint l.length ++ (l.map encodeVarint).flatten

/-- Decode a known number of varints. -/
def decodeNats : Nat → List Nat → Option (List Nat × List Nat)
  | 0, rest => some ([], rest)
  | k + 1, rest =>
      match decodeVarint rest with
      | none => none
      | some (n, r) =>
          match decodeNats k r with
          | none => none
          | some (ns, r') => some (n :: ns, r')

/-- Decode a length-prefixed bytes field. -/
def decodeBytes (l : List Nat) : Option (List Nat × List Nat) :=
  match decodeVarint l with
  | none => none
  | some (k, rest) => decodeNats k rest

/-- Length-prefixed string list. -/
def encodeStrList (l : List String) : List Nat :=
  encodeVarint l.length ++ (l.map encodeString).flatten

/-- Decode a known number of strings. -/
def decodeStrs : Nat → List Nat → Option (List String × List Nat)
  | 0, rest => some ([], rest)
  | k + 1, rest =>
      match decodeString rest with
      | none => none
      | some (s, r) =>
          match decodeStrs k r with
          | none => none
          | some (ss, r') => some (s :: ss, r')

/-- Decode a length-prefixed string list. -/
def decodeStrList (l : List Nat) : Option (List String × List Nat) :=
  match decodeVarint l with
  | none => none
  | some (k, rest) => decodeStrs k rest

/-- Length-prefixed map of string pairs. -/
def encodeMeta (l : List (String × String)) : List Nat :=
  encodeVarint l.length ++
    (l.map (fun p => encodeString p.1 ++ encodeString p.2)).flatten

/-- Decode a known number of string pairs. -/
def decodePairs : Nat → List Nat → Option (List (String × String) × List Nat)
  | 0, rest => some ([], rest)
  | k + 1, rest =>
      match decodeString rest with
      | none => none
      | some (a, r) =>
          match decodeString r with
          | none => none
          | some (b, r') =>
              match decodePairs k r' with
              | none => none
              | some (ps, r'') => some ((a, b) :: ps, r'')

/-- Decode a length-prefixed map of string pairs. -/
def decodeMeta (l : List Nat) : Option (List (String × String) × List Nat) :=
  match decodeVarint l with
  | none => none
  | some (k, rest) => decodePairs k rest

/-- Presence-tagged optional string. -/
def encodeOptStr : Option String → List Nat
  | none => [0]
  | some s => 1 :: encodeString s

/-- Decode an optional string. -/
def decodeOptStr : List Nat → Option (Option String × List Nat)
  | 0 :: rest => some (none, rest)
  | 1 :: rest =>
      match decodeString rest with
      | none => none
      | some (s, r) => some (some s, r)
  | _ => none

/-- Binary form of a `ClientContext`. -/
def ClientContext.encodeBin (c : ClientContext) : List Nat :=
  encodeString c.clientId ++ encodeString c.kind ++
    encodeString c.displayName ++ encodeVarint c.role ++
    encodeStrList c.capabilities ++ encodeStrList c.groups ++
    encodeMeta c.metadata ++ encodeOptStr c.reconnectToken

/-- Decode a `ClientContext`. -/
def ClientContext.decodeBin (l : List Nat) :
    Option (ClientContext × List Nat) := do
  let (cid, l) ← decodeString l
  let (kind, l) ← decodeString l
  let (dn, l) ← decodeString l
  let (role, l) ← decodeVarint l
  let (caps, l) ← decodeStrList l
  let (gs, l) ← decodeStrList l
  let (md, l) ← decodeMeta l
  let (rt, l) ← decodeOptStr l
  some (⟨cid, kind, dn, role, caps, gs, md, rt⟩, l)

/-- Presence-tagged optional `ClientContext`. -/
def encodeOptCtx : Option ClientContext → List Nat
  | none => [0]
  | some c => 1 :: c.encodeBin

/-- Decode an optional `ClientContext`. -/
def decodeOptCtx : List Nat → Option (Option ClientContext × List Nat)
  | 0 :: rest => some (none, rest)
  | 1 :: rest =>
      match ClientContext.decodeBin rest with
      | none => none
      | some (c, r) => some (some c, r)
  | _ => none

/-- Binary form of `Hello`. -/
def Hello.encodeBin (m : Hello) : List Nat :=
  encodeString m.kind ++ encodeString m.name ++ encodeOptStr m.room ++
    encodeOptStr m.reconnectToken

/-- Decode `Hello`. -/
def Hello.decodeBin (l : List Nat) : Option (Hello × List Nat) := do
  let (k, l) ← decodeString l
  let (n, l) ← decodeString l
  let (r, l) ← decodeOptStr l
  let (t, l) ← decodeOptStr l
  some (⟨k, n, r, t⟩, l)

/-- Binary form of `HelloOk`. -/
def HelloOk.encodeBin (m : HelloOk) : List Nat :=
  encodeVarint m.serverTime ++ encodeString m.serverName ++
    encodeString m.serverVersion ++ encodeOptCtx m.clientContext

/-- Decode `HelloOk`. -/
def HelloOk.decodeBin (l : List Nat) : Option (HelloOk × List Nat) := do
  let (t, l) ← decodeVarint l
  let (n, l) ← decodeString l
  let (v, l) ← decodeString l
  let (c, l) ← decodeOptCtx l
  some (⟨t, n, v, c⟩, l)

/-- Binary form of `RoomJoin` (no fields). -/
def RoomJoin.encodeBin (_ : RoomJoin) : List Nat :=
  []

/-- Decode `RoomJoin`. -/
def RoomJoin.decodeBin (l : List Nat) : Option (RoomJoin × List Nat) :=
  some (⟨()⟩, l)

/-- Binary form of `RoomInfo`. -/
def RoomInfoP.encodeBin (m : RoomInfoP) : List Nat :=
  encodeString m.id ++ encodeString m.code ++ encodeString m.type ++
    encodeVarint m.visibility ++ encodeVarint m.maxClients

/-- Decode `RoomInfo`. -/
def RoomInfoP.decodeBin (l : List Nat) : Option (RoomInfoP × List Nat) := do
  let (i, l) ← decodeString l
  let (c, l) ← decodeString l
  let (t, l) ← decodeString l
  let (vis, l) ← decodeVarint l
  let (mc, l) ← decodeVarint l
  some (⟨i, c, t, vis, mc⟩, l)

/-- Binary form of `RoomJoined`. -/
def RoomJoined.encodeBin (m : RoomJoined) : List Nat :=
  m.room.encodeBin

/-- Decode `RoomJoined`. -/
def RoomJoined.decodeBin (l : List Nat) : Option (RoomJoined × List Nat) := do
  let (r, l) ← RoomInfoP.decodeBin l
  some (⟨r⟩, l)

/-- Binary form of `GameEvent`. -/
def GameEvent.encodeBin (m : GameEvent) : List Nat :=
  encodeString m.name ++ encodeBytes m.payload

/-- Decode `GameEvent`. -/
def GameEvent.decodeBin (l : List Nat) : Option (GameEvent × List Nat) := do
  let (n, l) ← decodeString l
  let (p, l) ← decodeBytes l
  some (⟨n, p⟩, l)

/-- Binary form of a `PClient`. -/
def PClient.encodeBin (m : PClient) : List Nat :=
  encodeString m.clientId ++ encodeString m.displayName ++
    encodeVarint m.role ++ encodeMeta m.metadata

/-- Decode a `PClient`. -/
def PClient.decodeBin (l : List Nat) : Option (PClient × List Nat) := do
  let (c, l) ← decodeString l
  let (d, l) ← decodeString l
  let (r, l) ← decodeVarint l
  let (md, l) ← decodeMeta l
  some (⟨c, d, r, md⟩, l)

/-- Binary form of `PresenceEvent`. -/
def PresenceEvent.encodeBin (m : PresenceEvent) : List Nat :=
  encodeVarint m.kind.toNat ++ m.client.encodeBin

/-- Decode `PresenceEvent`. -/
def PresenceEvent.decodeBin (l : List Nat) :
    Option (PresenceEvent × List Nat) := do
  let (k, l) ← decodeVarint l
  match PresenceKind.fromNat k with
  | none => none
  | some kind => do
      let (c, l) ← PClient.decodeBin l
      some (⟨kind, c⟩, l)

/-- Binary form of `Self`. -/
def SelfMsg.encodeBin (m : SelfMsg) : List Nat :=
  encodeString m.clientId ++ encodeVarint m.role ++
    encodeStrList m.capabilities ++ encodeString m.reconnectToken ++
    encodeStrList m.groups

/-- Decode `Self`. -/
def SelfMsg.decodeBin (l : List Nat) : Option (SelfMsg × List Nat) := do
  let (c, l) ← decodeString l
  let (r, l) ← decodeVarint l
  let (caps, l) ← decodeStrList l
  let (t, l) ← decodeString l
  let (gs, l) ← decodeStrList l
  some (⟨c, r, caps, t, gs⟩, l)

/-- Binary form of `Error`. -/
def ErrorMsg.encodeBin (m : ErrorMsg) : List Nat :=
  encodeString m.code ++ encodeString m.message ++
    encodeBool m.retryable ++ encodeBytes m.details

/-- Decode `Error`. -/
def ErrorMsg.decodeBin (l : List Nat) : Option (ErrorMsg × List Nat) := do
  let (c, l) ← decodeString l
  let (m, l) ← decodeString l
  let (r, l) ← decodeBool l
  let (d, l) ← decodeBytes l
  some (⟨c, m, r, d⟩, l)

/-- Binary form of `Ping`. -/
def Ping.encodeBin (m : Ping) : List Nat :=
  encodeVarint m.nonce

/-- Decode `Ping`. -/
def Ping.decodeBin (l : List Nat) : Option (Ping × List Nat) := do
  let (n, l) ← decodeVarint l
  some (⟨n⟩, l)

/-- Binary form of `Pong`. -/
def Pong.encodeBin (m : Pong) : List Nat :=
  encodeVarint m.serverTime

/-- Decode `Pong`. -/
def Pong.decodeBin (l : List Nat) : Option (Pong × List Nat) := do
  let (n, l) ← decodeVarint l
  some (⟨n⟩, l)

/-- Binary form of `StateRequest` (no fields). -/
def StateRequest.encodeBin (_ : StateRequest) : List Nat :=
  []

/-- Decode `StateRequest`. -/
def StateRequest.decodeBin (l : List Nat) : Option (StateRequest × List Nat) :=
  some (⟨()⟩, l)

/-- Binary form of `StateUpdate`. -/
def StateUpdate.encodeBin (m : StateUpdate) : List Nat :=
  encodeVarint m.kind.toNat ++ encodeVarint m.tick ++ encodeBytes m.state

/-- Decode `StateUpdate`. -/
def StateUpdate.decodeBin (l : List Nat) : Option (StateUpdate × List Nat) := do
  let (k, l) ← decodeVarint l
  match StateUpdateKind.fromNat k with
  | none => none
  | some kind => do
      let (t, l) ← decodeVarint l
      let (s, l) ← decodeBytes l
      some (⟨kind, t, s⟩, l)

/-- Constructor tag of a packed payload in the binary form. -/
def PMsg.tag : PMsg → Nat
  | .hello _ => 1
  | .helloOk _ => 2
  | .helloError _ => 3
  | .roomJoin _ => 4
  | .roomJoined _ => 5
  | .gameEvent _ => 6
  | .presence _ => 7
  | .selfMsg _ => 8
  | .error _ => 9
  | .ping _ => 10
  | .pong _ => 11
  | .stateRequest _ => 12
  | .stateUpdate _ => 13

/-- Binary form of a packed `Any`: type tag plus message fields. -/
def PMsg.encodeBin : PMsg → List Nat
  | .hello m => 1 :: m.encodeBin
  | .helloOk m => 2 :: m.encodeBin
  | .helloError m => 3 :: m.encodeBin
  | .roomJoin m => 4 :: m.encodeBin
  | .roomJoined m => 5 :: m.encodeBin
  | .gameEvent m => 6 :: m.encodeBin
  | .presence m => 7 :: m.encodeBin
  | .selfMsg m => 8 :: m.encodeBin
  | .error m => 9 :: m.encodeBin
  | .ping m => 10 :: m.encodeBin
  | .pong m => 11 :: m.encodeBin
  | .stateRequest m => 12 :: m.encodeBin
  | .stateUpdate m => 13 :: m.encodeBin

/-- Decode a packed `Any`. -/
def PMsg.decodeBin : List Nat → Option (PMsg × List Nat)
  | 1 :: rest => (Hello.decodeBin rest).map fun p => (.hello p.1, p.2)
  | 2 :: rest => (HelloOk.decodeBin rest).map fun p => (.helloOk p.1, p.2)
  | 3 :: rest => (ErrorMsg.decodeBin rest).map fun p => (.helloError p.1, p.2)
  | 4 :: rest => (RoomJoin.decodeBin rest).map fun p => (.roomJoin p.1, p.2)
  | 5 :: rest => (RoomJoined.decodeBin rest).map fun p => (.roomJoined p.1, p.2)
  | 6 :: rest => (GameEvent.decodeBin rest).map fun p => (.gameEvent p.1, p.2)
  | 7 :: rest => (PresenceEvent.decodeBin rest).map fun p => (.presence p.1, p.2)
  | 8 :: rest => (SelfMsg.decodeBin rest).map fun p => (.selfMsg p.1, p.2)
  | 9 :: rest => (ErrorMsg.decodeBin rest).map fun p => (.error p.1, p.2)
  | 10 :: rest => (Ping.decodeBin rest).map fun p => (.ping p.1, p.2)
  | 11 :: rest => (Pong.decodeBin rest).map fun p => (.pong p.1, p.2)
  | 12 :: rest => (StateRequest.decodeBin rest).map fun p => (.stateRequest p.1, p.2)
  | 13 :: rest => (StateUpdate.decodeBin rest).map fun p => (.stateUpdate p.1, p.2)
  | _ => none

/-- Presence-tagged optional payload. -/
def encodeOptMsg : Option PMsg → List Nat
  | none => [0]
  | some m => 1 :: m.encodeBin

/-- Decode an optional payload. -/
def decodeOptMsg : List Nat → Option (Option PMsg × List Nat)
  | 0 :: rest => some (none, rest)
  | 1 :: rest =>
      match PMsg.decodeBin rest with
      | none => none
      | some (m, r) => some (some m, r)
  | _ => none

/-- `ProtoBinaryCodec.encode`: the compact binary form of an envelope. -/
def ProtoBinaryCodec.encode (e : Envelope) : List Nat :=
  encodeVarint e.v ++ encodeString e.t ++ encodeString e.id ++
    encodeString e.replyTo ++ encodeVarint e.ts ++ encodeString e.room ++
    encodeString e.from_ ++ encodeString e.to_ ++ encodeOptMsg e.data

/-- `ProtoBinaryCodec.decode`. -/
def ProtoBinaryCodec.decode (l : List Nat) : Option Envelope := do
  let (v, l) ← decodeVarint l
  let (t, l) ← decodeString l
  let (i, l) ← decodeString l
  let (rt, l) ← decodeString l
  let (ts, l) ← decodeVarint l
  let (rm, l) ← decodeString l
  let (f, l) ← decodeString l
  let (target, l) ← decodeString l
  let (d, _) ← decodeOptMsg l
  some ⟨v, t, i, rt, ts, rm, f, target, d⟩

/-! ## The `EnvelopeBuilder`-based adapter variant
(packages/trivia-example/src/display-client.ts, third concatenated
file) -/

/-- `EnvelopeBuilder.decodeAndUnpack(…, HelloSchema)` applied to an
already-decoded envelope: `null` when the envelope has no payload or the
payload does not unpack to `Hello`. -/
def decodeAndUnpackHello (env : Envelope) : Option (Hello × Envelope) :=
  match env.data with
  | none => none
  | some _ =>
      match env.unpackHello with
      | none => none
      | some h => some (h, env)

/-- `handleHello` of the `EnvelopeBuilder`-based variant (display-client
lines 1071–1117): a payload that fails `decodeAndUnpack` is dropped with
`return` — no reply of any kind.  (The subsequent `if (!hello)`
`BAD_REQUEST` branch is unreachable because `decodeAndUnpack` already
returned `null` in that case.)  An authorization rejection is answered
with a dedicated `hello/error` envelope, and `hello/ok` echoes the
assigned context. -/
def RoomState.handleHelloDC (hooks : GameHooks) (room : RoomState)
    (client : Client) (env : Envelope) : RoomState × List REvent :=
  match decodeAndUnpackHello env with
  | none => (room, [])
  | some (hello, env) =>
      match hooks.authorizeHello client hello with
      | .err code message retryable =>
          let r := room.sendEnvelope client "partykit/hello/error"
            (.helloError ⟨code, message, retryable.getD false, []⟩)
            (some env.id) none none
          (r.1, [r.2])
      | .ok ctx =>
          let room1 :=
            { room with presence := room.presence.set client.sessionId ctx }
          let ok : HelloOk :=
            ⟨room1.now, "partykit-colyseus", "0.1.0", some ctx⟩
          let r := room1.sendEnvelope client "partykit/hello/ok"
            (.helloOk ok) (some env.id) none none
          (r.1, [r.2])

/-! ## Concrete fixtures used by witnesses and counterexamples -/

/-- A small concrete context. -/
def demoCtx (cid : String) : ClientContext :=
  ⟨cid, "controller", cid, 2, [], [], [], none⟩

/-- Hooks that accept every hello and succeed on every game event. -/
def demoHooks : GameHooks where
  authorizeHello := fun client _ => .ok (demoCtx client.sessionId)
  onPartyKitGameEvent := fun _ _ => .ok ()
  getStateSnapshot := fun _ => [123, 125]

/-- Hooks whose game-event hook always throws. -/
def demoHooksThrowing : GameHooks where
  authorizeHello := fun client _ => .ok (demoCtx client.sessionId)
  onPartyKitGameEvent := fun _ _ => .error "unauthorized"
  getStateSnapshot := fun _ => [123, 125]

/-- A three-client room with empty presence. -/
def demoRoom : RoomState :=
  ⟨⟨[]⟩, [⟨"sA"⟩, ⟨"sB"⟩, ⟨"sC"⟩], 0, ⟨"room1", "ABCD", "partykit", 1, 0⟩,
    0, 0⟩

/-- A concrete client envelope. -/
def demoEnv (t : String) (d : Option PMsg) : Envelope :=
  ⟨1, t, "e1", "", 0, "room1", "sA", "server", d⟩

end PartyKit

namespace PartyKit

/-! ## Timer bookkeeping invariant (for the spec's one-timer claim) -/

/-- Guard for the amended one-timer invariant: `disconnect` is only
invoked for clients whose session is currently connected — the normal
transport flow, in which every disconnect is preceded by a connect.
All other operations are unrestricted. -/
def SMState.goodOp {D : Type} (s : SMState D) : SMOp D → Bool
  | .disconnect c =>
      match s.sessions.lookup c with
      | some sess => sess.isConnected
      | none => true
  | _ => true

/-- A run whose every operation respects `goodOp` at the state where it
executes. -/
inductive GoodTrace {D : Type} (cfg : SMConfig) :
    SMState D → List (SMOp D) → Prop
  | nil (s : SMState D) : GoodTrace cfg s []
  | cons {s : SMState D} {op : SMOp D} {ops : List (SMOp D)} :
      s.goodOp op = true → GoodTrace cfg (s.step cfg op).1 ops →
      GoodTrace cfg s (op :: ops)

/-- Timer bookkeeping invariant of a `SessionManager` state: scheduled
timer identities are distinct and below the fresh-id counter, every
scheduled timer is the one its owner's `disconnectTimers` entry points
at and vice versa, a scheduled timer's owner has a disconnected session
on record, and with reconnection disabled no timers exist at all. -/
structure SMInv {D : Type} (cfg : SMConfig) (s : SMState D) : Prop where
  nodupIds : (s.liveTimers.map Timer.id).Nodup
  idsLt : ∀ t ∈ s.liveTimers, t.id < s.nextTimerId
  mapped : ∀ t ∈ s.liveTimers, s.disconnectTimers.lookup t.owner = some t.id
  entries : ∀ c tid, s.disconnectTimers.lookup c = some tid →
      ∃ t ∈ s.liveTimers, t.id = tid ∧ t.owner = c
  sessTimer : ∀ t ∈ s.liveTimers,
      ∃ sess, s.sessions.lookup t.owner = some sess ∧
        sess.isConnected = false
  disabledEmpty : cfg.enableReconnection = false →
      s.liveTimers = [] ∧ s.disconnectTimers = []

end PartyKit

namespace PartyKit

theorem lookup_mapReplace_self {α : Type} (m : List (String × α)) (k : String)
    (v : α) (h : m.any (fun p => p.1 == k) = true) :
    ((m.map fun p => if p.1 == k then (k, v) else p).lookup k) = some v := by
  induction m with
  | nil => simp at h
  | cons p rest ih =>
      simp only [List.map_cons]
      by_cases hp : p.1 = k
      · have hp2 : (p.1 == k) = true := by simp [hp]
        simp only [hp2]
        simp [List.lookup]
      · have hp2 : (p.1 == k) = false := by simp [hp]
        have hk2 : (k == p.1) = false := by
          simp only [beq_eq_false_iff_ne, ne_eq]
          exact fun hh => hp hh.symm
        simp only [List.any_cons, hp2, Bool.false_or] at h
        simp only [hp2]
        simp only [List.lookup, hk2]
        simpa using ih h

theorem lookup_mapReplace_ne {α : Type} (m : List (String × α)) (k k' : String)
    (v : α) (h : k' ≠ k) :
    ((m.map fun p => if p.1 == k then (k, v) else p).lookup k') =
      m.lookup k' := by
  induction m with
  | nil => simp
  | cons p rest ih =>
      simp only [List.map_cons]
      by_cases hp : p.1 = k
      · have hp2 : (p.1 == k) = true := by simp [hp]
        have hk2 : (k' == k) = false := by simp [h]
        have hk3 : (k' == p.1) = false := by simp [hp, h]
        simp only [hp2]
        simp only [List.lookup, hk2, hk3]
        simpa using ih
      · have hp2 : (p.1 == k) = false := by simp [hp]
        simp only [hp2]
        by_cases hk : k' = p.1
        · have hk2 : (k' == p.1) = true := by simp [hk]
          simp [List.lookup, hk2]
        · have hk2 : (k' == p.1) = false := by simp [hk]
          simp only [List.lookup, hk2]
          simpa using ih

theorem lookup_append_single_self {α : Type} (m : List (String × α))
    (k : String) (v : α) (h : m.any (fun p => p.1 == k) = false) :
    ((m ++ [(k, v)]).lookup k) = some v := by
  induction m with
  | nil => simp [List.lookup]
  | cons p rest ih =>
      simp only [List.any_cons, Bool.or_eq_false_iff] at h
      have hk2 : (k == p.1) = false := by
        simp only [beq_eq_false_iff_ne, ne_eq]
        intro hh
        have := h.1
        rw [hh] at this
        simp at this
      simp [List.lookup, hk2, ih h.2]

theorem lookup_append_single_ne {α : Type} (m : List (String × α))
    (k k' : String) (v : α) (h : k' ≠ k) :
    ((m ++ [(k, v)]).lookup k') = m.lookup k' := by
  have hk0 : (k' == k) = false := by simp [h]
  induction m with
  | nil => simp [List.lookup, hk0]
  | cons p rest ih =>
      by_cases hk : k' = p.1
      · have hk2 : (k' == p.1) = true := by simp [hk]
        simp [List.lookup, hk2]
      · have hk2 : (k' == p.1) = false := by simp [hk]
        simp [List.lookup, hk2, ih]

/-- `lookup` of the written key after a JS `Map.set`. -/
theorem lookup_mapSet_self {α : Type} (m : List (String × α)) (k : String)
    (v : α) : (mapSet m k v).lookup k = some v := by
  unfold mapSet
  by_cases hany : m.any (fun p => p.1 == k) = true
  · rw [if_pos hany]
    exact lookup_mapReplace_self m k v hany
  · have hany2 : m.any (fun p => p.1 == k) = false := by
      revert hany
      cases m.any (fun p => p.1 == k) <;> simp
    rw [if_neg hany]
    exact lookup_append_single_self m k v hany2

/-- `lookup` of another key after a JS `Map.set`. -/
theorem lookup_mapSet_ne {α : Type} (m : List (String × α)) (k k' : String)
    (v : α) (h : k' ≠ k) : (mapSet m k v).lookup k' = m.lookup k' := by
  unfold mapSet
  by_cases hany : m.any (fun p => p.1 == k) = true
  · rw [if_pos hany]
    exact lookup_mapReplace_ne m k k' v h
  · rw [if_neg hany]
    exact lookup_append_single_ne m k k' v h

/-- `lookup` of the removed key after a JS `Map.delete`. -/
theorem lookup_mapDelete_self {α : Type} (m : List (String × α))
    (k : String) : (mapDelete m k).lookup k = none := by
  induction m with
  | nil => simp [mapDelete]
  | cons p rest ih =>
      by_cases hp : p.1 = k
      · have hp2 : (p.1 != k) = false := by simp [hp]
        simpa [mapDelete, List.filter_cons, hp2] using ih
      · have hp2 : (p.1 != k) = true := by simp [hp]
        have hk2 : (k == p.1) = false := by
          simp only [beq_eq_false_iff_ne, ne_eq]
          exact fun hh => hp hh.symm
        simp only [mapDelete, List.filter_cons, hp2, if_pos] at ih ⊢
        simpa [List.lookup, hk2] using ih

/-- `lookup` of another key after a JS `Map.delete`. -/
theorem lookup_mapDelete_ne {α : Type} (m : List (String × α))
    (k k' : String) (h : k' ≠ k) :
    (mapDelete m k).lookup k' = m.lookup k' := by
  induction m with
  | nil => simp [mapDelete]
  | cons p rest ih =>
      by_cases hp : p.1 = k
      · have hp2 : (p.1 != k) = false := by simp [hp]
        have hk2 : (k' == p.1) = false := by
          simp only [beq_eq_false_iff_ne, ne_eq]
          intro hh
          exact h (by rw [hh, hp])
        simp only [mapDelete, List.filter_cons, hp2, Bool.false_eq_true,
          if_false] at ih ⊢
        rw [ih, List.lookup]
        simp [hk2]
      · have hp2 : (p.1 != k) = true := by simp [hp]
        by_cases hk : k' = p.1
        · have hk2 : (k' == p.1) = true := by simp [hk]
          simp [mapDelete, List.filter_cons, hp2, List.lookup, hk2]
        · have hk2 : (k' == p.1) = false := by simp [hk]
          simp only [mapDelete, List.filter_cons, hp2, if_pos] at ih ⊢
          simp only [List.lookup, hk2]
          simpa using ih

end PartyKit

namespace PartyKit

/-- `cancelMappedTimer` only touches the timer fields. -/
theorem cancelMappedTimer_sessions {D : Type} (s : SMState D) (c : String) :
    (s.cancelMappedTimer c).sessions = s.sessions := by
  unfold SMState.cancelMappedTimer
  split <;> rfl

/-- `cancelMappedTimer` leaves the clock alone. -/
theorem cancelMappedTimer_now {D : Type} (s : SMState D) (c : String) :
    (s.cancelMappedTimer c).now = s.now := by
  unfold SMState.cancelMappedTimer
  split <;> rfl

/-- `cancelMappedTimer` leaves the id supply alone. -/
theorem cancelMappedTimer_nextTimerId {D : Type} (s : SMState D)
    (c : String) : (s.cancelMappedTimer c).nextTimerId = s.nextTimerId := by
  unfold SMState.cancelMappedTimer
  split <;> rfl

/-- C10: on a reconnect, `connect` leaves `data` alone and ignores
`initialData`; only `context`, `isConnected`, `disconnectedAt` change. -/
theorem connect_reconnect_frame {D : Type} (cfg : SMConfig) (s : SMState D)
    (c : String) (ctx : ClientContext) (d : Option D) (sess : Session D)
    (hrec : cfg.enableReconnection = true)
    (hexist : s.sessions.lookup c = some sess) :
    (s.connect cfg c ctx d).2.2.1 =
      { sess with
        context := ctx
        isConnected := true
        disconnectedAt := none } ∧
    s.connect cfg c ctx d = s.connect cfg c ctx none ∧
    (∀ c', c' ≠ c →
      ((s.connect cfg c ctx d).1.sessions.lookup c' =
        s.sessions.lookup c')) := by
  unfold SMState.connect
  simp only [hrec, if_true, hexist]
  refine ⟨trivial, trivial, ?_⟩
  intro c' hc
  rw [cancelMappedTimer_sessions]
  exact lookup_mapSet_ne _ c c' _ hc

end PartyKit

namespace PartyKit

/-- A list of timers none of which is owned by `c` filters to nothing. -/
theorem filter_owner_nil (l : List Timer) (c : String)
    (h : ∀ t ∈ l, t.owner ≠ c) :
    l.filter (fun t => t.owner == c) = [] := by
  induction l with
  | nil => rfl
  | cons t rest ih =>
      have h1 : (t.owner == c) = false := by
        simp [h t (List.mem_cons_self t rest)]
      simp only [List.filter_cons, h1, Bool.false_eq_true, if_false]
      exact ih fun u hu => h u (List.mem_cons_of_mem t hu)

/-- After `cancelMappedTimer`, a client whose scheduled timers were all
the mapped one has no scheduled timer and no map entry left. -/
theorem cancelMappedTimer_clears {D : Type} (s : SMState D) (c : String)
    (hsingle : ∀ t ∈ s.liveTimers, t.owner = c →
      s.disconnectTimers.lookup c = some t.id) :
    (∀ t ∈ (s.cancelMappedTimer c).liveTimers, t.owner ≠ c) ∧
    (s.cancelMappedTimer c).disconnectTimers.lookup c = none := by
  unfold SMState.cancelMappedTimer
  cases hmap : s.disconnectTimers.lookup c with
  | none =>
      simp only [hmap]
      constructor
      · intro t ht hc
        have h2 := hsingle t ht hc
        rw [hmap] at h2
        cases h2
      · trivial
  | some tid =>
      simp only [hmap]
      constructor
      · intro t ht hc
        simp only [List.mem_filter] at ht
        have h2 := hsingle t ht.1 hc
        rw [hmap] at h2
        have h3 : tid = t.id := by
          injection h2
        have h4 := ht.2
        rw [← h3] at h4
        simp at h4
      · exact lookup_mapDelete_self _ c

/-- C1: the grace-period lifecycle.  With reconnection enabled and the
60-second grace period: (a) `connect` on an existing record cancels the
client's grace timer, reconnects the session (connected, no
`disconnectedAt`, refreshed context), emits only
`onConnected(…, isReconnect := true)` — no `onTimeout` — and returns
`isReconnect = true`; (b) if instead the scheduled timer is delivered
while the record still exists, exactly the one `onTimeout` hook fires
and `get` then returns absent; (c) `disconnect` schedules that timer
60000 ms after the disconnect instant, without any `onTimeout`. -/
theorem sessionManager_grace_lifecycle {D : Type} (cfg : SMConfig)
    (s : SMState D) (c : String) (ctx : ClientContext) (d : Option D)
    (hrec : cfg.enableReconnection = true)
    (hgrace : cfg.gracePeriodMs = 60000) :
    (∀ sess, s.sessions.lookup c = some sess →
      (∀ t ∈ s.liveTimers, t.owner = c →
        s.disconnectTimers.lookup c = some t.id) →
      ((s.connect cfg c ctx d).2.2.2 = true ∧
        (s.connect cfg c ctx d).2.2.1.isConnected = true ∧
        (s.connect cfg c ctx d).2.2.1.disconnectedAt = none ∧
        (s.connect cfg c ctx d).2.2.1.context = ctx ∧
        (s.connect cfg c ctx d).1.get c =
          some (s.connect cfg c ctx d).2.2.1 ∧
        (s.connect cfg c ctx d).2.1 =
          [.onConnected c (s.connect cfg c ctx d).2.2.1 true] ∧
        (s.connect cfg c ctx d).1.ownedTimers c = [] ∧
        (s.connect cfg c ctx d).1.disconnectTimers.lookup c = none)) ∧
    (∀ t sess, t ∈ s.liveTimers → t.owner = c → t.fireAt ≤ s.now →
      s.sessions.lookup c = some sess →
      ((s.fireTimer t).2 = [.onTimeout c sess] ∧
        (s.fireTimer t).1.get c = none)) ∧
    (∀ sess, s.sessions.lookup c = some sess →
      ∃ timer : Timer, timer.owner = c ∧ timer.fireAt = s.now + 60000 ∧
        timer ∈ (s.disconnect cfg c).1.liveTimers ∧
        (s.disconnect cfg c).1.disconnectTimers.lookup c = some timer.id ∧
        ∀ sess' : Session D,
          SMHook.onTimeout c sess' ∉ (s.disconnect cfg c).2.1) := by
  refine ⟨?_, ?_, ?_⟩
  · intro sess hexist hsingle
    have hcancel := cancelMappedTimer_clears s c hsingle
    refine ⟨?_, ?_, ?_, ?_, ?_, ?_, ?_, ?_⟩
    · simp [SMState.connect, hrec, hexist]
    · simp [SMState.connect, hrec, hexist]
    · simp [SMState.connect, hrec, hexist]
    · simp [SMState.connect, hrec, hexist]
    · simp [SMState.connect, SMState.get, hrec, hexist, lookup_mapSet_self]
    · simp [SMState.connect, hrec, hexist]
    · simp only [SMState.connect, hrec, if_true, hexist, SMState.ownedTimers]
      exact filter_owner_nil _ c hcancel.1
    · simp only [SMState.connect, hrec, if_true, hexist]
      exact hcancel.2
  · intro t sess ht howner hfire hexist
    constructor
    · unfold SMState.fireTimer
      rw [howner]
      simp only [hexist]
    · unfold SMState.fireTimer SMState.get
      rw [howner]
      simp only [hexist, lookup_mapDelete_self]
  · intro sess hexist
    refine ⟨⟨s.nextTimerId, c, s.now + cfg.gracePeriodMs⟩, rfl,
      by rw [hgrace], ?_, ?_, ?_⟩
    · simp [SMState.disconnect, hexist, hrec]
    · simp [SMState.disconnect, hexist, hrec, lookup_mapSet_self]
    · intro sess'
      simp [SMState.disconnect, hexist, hrec]

end PartyKit

namespace PartyKit

/-- Witness for C10: a concrete reconnect keeps the stored data and
ignores the new `initialData`. -/
theorem connect_reconnect_frame_witness :
    ((SMState.init Unit).connect ⟨true, 60000⟩ "c1" (demoCtx "c1")
        (some ())).1.sessions.lookup "c1" =
      some ⟨demoCtx "c1", true, none, some ()⟩ ∧
    ((((SMState.init Unit).connect ⟨true, 60000⟩ "c1" (demoCtx "c1")
        (some ())).1.connect ⟨true, 60000⟩ "c1" ClientContext.empty
        none).2.2.1 =
      { (⟨demoCtx "c1", true, none, some ()⟩ : Session Unit) with
        context := ClientContext.empty
        isConnected := true
        disconnectedAt := none }) := by
  refine ⟨by decide, ?_⟩
  exact (connect_reconnect_frame ⟨true, 60000⟩ _ "c1" ClientContext.empty
    none ⟨demoCtx "c1", true, none, some ()⟩ rfl (by decide)).1

/-- Witness for C1: on a concrete one-client manager, reconnecting after
a disconnect yields `isReconnect = true` with the timer cancelled, and
delivering the timer instead removes the session with one `onTimeout`. -/
theorem sessionManager_grace_lifecycle_witness :
    (let cfg : SMConfig := ⟨true, 60000⟩
     let s1 := (((SMState.init Unit).connect cfg "c1" (demoCtx "c1")
       none).1.disconnect cfg "c1").1
     let s2 := (s1.step cfg (.advance 60001)).1
     let sess : Session Unit := ⟨demoCtx "c1", false, some 0, none⟩
     s1.sessions.lookup "c1" = some sess ∧
       (s1.connect cfg "c1" (demoCtx "c1") none).2.2.2 = true ∧
       (s1.connect cfg "c1" (demoCtx "c1") none).1.ownedTimers "c1" = [] ∧
       (s2.fireTimer ⟨0, "c1", 60000⟩).2 = [.onTimeout "c1" sess] ∧
       (s2.fireTimer ⟨0, "c1", 60000⟩).1.get "c1" = none) := by
  intro cfg s1 s2 sess
  have h1 := sessionManager_grace_lifecycle (D := Unit) cfg s1 "c1"
    (demoCtx "c1") none rfl rfl
  have h2 := sessionManager_grace_lifecycle (D := Unit) cfg s2 "c1"
    (demoCtx "c1") none rfl rfl
  have ha := h1.1 sess (by decide) (by decide)
  have hb := h2.2.1 ⟨0, "c1", 60000⟩ sess (by decide) rfl (by decide)
    (by decide)
  exact ⟨by decide, ha.1, ha.2.2.2.2.2.2.1, hb.1, hb.2⟩

/-- C2 counterexample: after `connect c1; disconnect c1; disconnect c1`
(all operations of the public API) two grace-period timers for `"c1"`
are scheduled and uncancelled at once — the second `disconnect`
overwrote the `disconnectTimers` entry without clearing the first
timer.  This falsifies "at most one live grace-period timer per
clientId for every sequence of operations". -/
theorem timer_leak_counterexample :
    (((SMState.init Unit).run ⟨true, 60000⟩
        [.connect "c1" ClientContext.empty none, .disconnect "c1",
          .disconnect "c1"]).1.ownedTimers "c1").length = 2 := by
  decide

end PartyKit

namespace PartyKit

/-- A list all of whose elements fail the predicate filters to nothing. -/
theorem filter_eq_nil_of_false {α : Type} (l : List α) (p : α → Bool)
    (h : ∀ a ∈ l, p a = false) : l.filter p = [] := by
  induction l with
  | nil => rfl
  | cons a rest ih =>
      simp only [List.filter_cons, h a (List.mem_cons_self a rest),
        Bool.false_eq_true, if_false]
      exact ih fun b hb => h b (List.mem_cons_of_mem a hb)

/-- A successful `lookup` exhibits a member pair. -/
theorem lookup_mem {α : Type} (m : List (String × α)) (k : String) (v : α)
    (h : m.lookup k = some v) : (k, v) ∈ m := by
  induction m with
  | nil => cases h
  | cons p rest ih =>
      by_cases hk : k = p.1
      · have hk2 : (k == p.1) = true := by simp [hk]
        rw [show p = (p.1, p.2) from rfl, List.lookup] at h
        simp only [hk2] at h
        injection h with h
        rw [hk, ← h]
        exact List.mem_cons_self _ _
      · have hk2 : (k == p.1) = false := by simp [hk]
        rw [show p = (p.1, p.2) from rfl, List.lookup] at h
        simp only [hk2] at h
        exact List.mem_cons_of_mem _ (ih h)

/-- Distinct ids identify timers within a nodup-id list. -/
theorem timer_eq_of_id_eq {l : List Timer}
    (h : (l.map Timer.id).Nodup) {t1 t2 : Timer}
    (h1 : t1 ∈ l) (h2 : t2 ∈ l) (hid : t1.id = t2.id) : t1 = t2 :=
  List.inj_on_of_nodup_map h h1 h2 hid

/-- Filtering preserves nodup of the mapped ids. -/
theorem nodup_ids_filter (l : List Timer) (p : Timer → Bool)
    (h : (l.map Timer.id).Nodup) :
    ((l.filter p).map Timer.id).Nodup :=
  ((List.filter_sublist l).map Timer.id).nodup h

/-- Under the invariant, a client with a connected session has neither a
`disconnectTimers` entry nor a scheduled timer. -/
theorem no_timer_of_connected {D : Type} {cfg : SMConfig} {s : SMState D}
    (hinv : SMInv cfg s) (c : String) (sess : Session D)
    (hs : s.sessions.lookup c = some sess)
    (hconn : sess.isConnected = true) :
    s.disconnectTimers.lookup c = none ∧
      ∀ t ∈ s.liveTimers, t.owner ≠ c := by
  have hmap : s.disconnectTimers.lookup c = none := by
    cases hmapeq : s.disconnectTimers.lookup c with
    | none => rfl
    | some tid =>
        obtain ⟨t, ht, -, howner⟩ := hinv.entries c tid hmapeq
        obtain ⟨sess2, hs2, hconn2⟩ := hinv.sessTimer t ht
        rw [howner, hs] at hs2
        injection hs2 with hs2
        rw [← hs2] at hconn2
        rw [hconn] at hconn2
        cases hconn2
  refine ⟨hmap, ?_⟩
  intro t ht hc
  have := hinv.mapped t ht
  rw [hc, hmap] at this
  cases this

/-- Under the invariant, a client with no session has no scheduled
timer. -/
theorem no_timer_of_absent {D : Type} {cfg : SMConfig} {s : SMState D}
    (hinv : SMInv cfg s) (c : String)
    (hs : s.sessions.lookup c = none) :
    ∀ t ∈ s.liveTimers, t.owner ≠ c := by
  intro t ht hc
  obtain ⟨sess2, hs2, -⟩ := hinv.sessTimer t ht
  rw [hc, hs] at hs2
  cases hs2

end PartyKit

namespace PartyKit

/-- What `cancelMappedTimer` guarantees under the invariant: sessions
and the id supply are untouched, surviving timers are old ones not owned
by the client, id-nodup persists, the client's map entry is gone, other
entries are untouched and still point at surviving timers. -/
theorem cancelMappedTimer_inv {D : Type} {cfg : SMConfig} (s : SMState D)
    (c : String) (hinv : SMInv cfg s) :
    (∀ t ∈ (s.cancelMappedTimer c).liveTimers,
        t ∈ s.liveTimers ∧ t.owner ≠ c) ∧
    (((s.cancelMappedTimer c).liveTimers.map Timer.id).Nodup) ∧
    ((s.cancelMappedTimer c).disconnectTimers.lookup c = none) ∧
    (∀ c', c' ≠ c →
        (s.cancelMappedTimer c).disconnectTimers.lookup c' =
          s.disconnectTimers.lookup c') ∧
    (∀ c' tid, c' ≠ c → s.disconnectTimers.lookup c' = some tid →
        ∃ t ∈ (s.cancelMappedTimer c).liveTimers,
          t.id = tid ∧ t.owner = c') := by
  unfold SMState.cancelMappedTimer
  cases hmap : s.disconnectTimers.lookup c with
  | none =>
      simp only [hmap]
      refine ⟨?_, hinv.nodupIds, trivial, fun _ _ => trivial, ?_⟩
      · intro t ht
        refine ⟨ht, ?_⟩
        intro hc
        have h2 := hinv.mapped t ht
        rw [hc, hmap] at h2
        cases h2
      · intro c' tid _ hl
        exact hinv.entries c' tid hl
  | some tid =>
      simp only [hmap]
      have hsurv : ∀ t ∈ s.liveTimers.filter (fun t => t.id != tid),
          t ∈ s.liveTimers ∧ t.owner ≠ c := by
        intro t ht
        simp only [List.mem_filter] at ht
        refine ⟨ht.1, ?_⟩
        intro hc
        have h2 := hinv.mapped t ht.1
        rw [hc, hmap] at h2
        have h3 : tid = t.id := by injection h2
        have h4 := ht.2
        rw [← h3] at h4
        simp at h4
      refine ⟨hsurv, nodup_ids_filter _ _ hinv.nodupIds,
        lookup_mapDelete_self _ c, fun c' hc => lookup_mapDelete_ne _ c c' hc,
        ?_⟩
      intro c' tid' hc hl
      obtain ⟨t', ht', hid', howner'⟩ := hinv.entries c' tid' hl
      refine ⟨t', ?_, hid', howner'⟩
      simp only [List.mem_filter]
      refine ⟨ht', ?_⟩
      by_cases hsame : t'.id = tid
      · obtain ⟨tc, htc, hidc, hownerc⟩ := hinv.entries c tid hmap
        have : t' = tc :=
          timer_eq_of_id_eq hinv.nodupIds ht' htc (by rw [hsame, hidc])
        rw [this, hownerc] at howner'
        exact absurd howner'.symm hc
      · simp [hsame]

end PartyKit

namespace PartyKit

/-- `connect` preserves the timer invariant. -/
theorem smInv_connect {D : Type} {cfg : SMConfig} {s : SMState D}
    (hinv : SMInv cfg s) (c : String) (ctx : ClientContext)
    (d : Option D) : SMInv cfg (s.connect cfg c ctx d).1 := by
  unfold SMState.connect
  cases hrec : cfg.enableReconnection with
  | false =>
      simp only [hrec, Bool.false_eq_true, if_false]
      obtain ⟨hlive, hmap⟩ := hinv.disabledEmpty hrec
      constructor
      · rw [hlive]; exact List.nodup_nil
      · intro t ht; rw [hlive] at ht; cases ht
      · intro t ht; rw [hlive] at ht; cases ht
      · intro c' tid hl
        rw [hmap] at hl
        cases hl
      · intro t ht; rw [hlive] at ht; cases ht
      · intro _; exact ⟨hlive, hmap⟩
  | true =>
      simp only [hrec, if_true]
      cases hexist : s.sessions.lookup c with
      | none =>
          simp only [hexist]
          have hnoowner := no_timer_of_absent hinv c hexist
          constructor
          · exact hinv.nodupIds
          · exact hinv.idsLt
          · exact hinv.mapped
          · exact hinv.entries
          · intro t ht
            obtain ⟨sess, hs, hconn⟩ := hinv.sessTimer t ht
            refine ⟨sess, ?_, hconn⟩
            rw [lookup_mapSet_ne _ c _ _ (hnoowner t ht)]
            exact hs
          · intro hdis
            rw [hdis] at hrec
            cases hrec
      | some sess =>
          simp only [hexist]
          obtain ⟨hsurv, hnodup, hmapc, hmapne, hentries⟩ :=
            cancelMappedTimer_inv s c hinv
          constructor
          · exact hnodup
          · intro t ht
            rw [cancelMappedTimer_nextTimerId]
            exact hinv.idsLt t (hsurv t ht).1
          · intro t ht
            rw [hmapne t.owner (hsurv t ht).2]
            exact hinv.mapped t (hsurv t ht).1
          · intro c' tid hl
            by_cases hc : c' = c
            · rw [hc, hmapc] at hl
              cases hl
            · rw [hmapne c' hc] at hl
              exact hentries c' tid hc hl
          · intro t ht
            rw [cancelMappedTimer_sessions,
              lookup_mapSet_ne _ c _ _ (hsurv t ht).2]
            obtain ⟨sess2, hs2, hconn2⟩ := hinv.sessTimer t (hsurv t ht).1
            exact ⟨sess2, hs2, hconn2⟩
          · intro hdis
            rw [hdis] at hrec
            cases hrec

end PartyKit

namespace PartyKit

/-- `disconnect` on a connected (or absent) session preserves the timer
invariant. -/
theorem smInv_disconnect {D : Type} {cfg : SMConfig} {s : SMState D}
    (hinv : SMInv cfg s) (c : String)
    (hgood : s.goodOp (.disconnect c) = true) :
    SMInv cfg (s.disconnect cfg c).1 := by
  unfold SMState.disconnect
  cases hexist : s.sessions.lookup c with
  | none => simpa only [hexist] using hinv
  | some sess =>
      simp only [hexist]
      have hconn : sess.isConnected = true := by
        simp only [SMState.goodOp, hexist] at hgood
        exact hgood
      obtain ⟨hmapc, hnoowner⟩ := no_timer_of_connected hinv c sess hexist hconn
      cases hrec : cfg.enableReconnection with
      | false =>
          simp only [hrec, Bool.false_eq_true, if_false]
          obtain ⟨hlive, hmap⟩ := hinv.disabledEmpty hrec
          constructor
          · rw [hlive]; exact List.nodup_nil
          · intro t ht; rw [hlive] at ht; cases ht
          · intro t ht; rw [hlive] at ht; cases ht
          · intro c' tid hl
            rw [hmap] at hl
            cases hl
          · intro t ht; rw [hlive] at ht; cases ht
          · intro _; exact ⟨hlive, hmap⟩
      | true =>
          simp only [hrec, if_true]
          constructor
          · -- nodup of ids after appending the fresh timer
            rw [List.map_append, List.nodup_append]
            refine ⟨hinv.nodupIds, List.nodup_singleton _, ?_⟩
            intro i hi
            simp only [List.map_cons, List.map_nil, List.mem_singleton]
            intro hEq
            simp only [List.mem_map] at hi
            obtain ⟨t, ht, hid⟩ := hi
            have := hinv.idsLt t ht
            rw [hid, hEq] at this
            exact absurd this (by simp)
          · intro t ht
            rw [List.mem_append] at ht
            cases ht with
            | inl h => exact Nat.lt_succ_of_lt (hinv.idsLt t h)
            | inr h =>
                rw [List.mem_singleton] at h
                rw [h]
                exact Nat.lt_succ_self _
          · intro t ht
            rw [List.mem_append] at ht
            cases ht with
            | inl h =>
                rw [lookup_mapSet_ne _ c _ _ (hnoowner t h)]
                exact hinv.mapped t h
            | inr h =>
                rw [List.mem_singleton] at h
                rw [h]
                exact lookup_mapSet_self _ c _
          · intro c' tid hl
            by_cases hc : c' = c
            · rw [hc, lookup_mapSet_self] at hl
              injection hl with hl
              refine ⟨⟨s.nextTimerId, c, s.now + cfg.gracePeriodMs⟩, ?_, ?_, ?_⟩
              · rw [List.mem_append, List.mem_singleton]
                exact Or.inr rfl
              · rw [← hl]
              · rw [hc]
            · rw [lookup_mapSet_ne _ c c' _ hc] at hl
              obtain ⟨t, ht, hid, howner⟩ := hinv.entries c' tid hl
              exact ⟨t, List.mem_append_left _ ht, hid, howner⟩
          · intro t ht
            rw [List.mem_append] at ht
            cases ht with
            | inl h =>
                rw [lookup_mapSet_ne _ c _ _ (hnoowner t h)]
                exact hinv.sessTimer t h
            | inr h =>
                rw [List.mem_singleton] at h
                rw [h]
                refine ⟨{ sess with
                    isConnected := false
                    disconnectedAt := some s.now }, ?_, rfl⟩
                exact lookup_mapSet_self _ c _
          · intro hdis
            rw [hdis] at hrec
            cases hrec

end PartyKit

namespace PartyKit

/-- `remove` preserves the timer invariant. -/
theorem smInv_remove {D : Type} {cfg : SMConfig} {s : SMState D}
    (hinv : SMInv cfg s) (c : String) : SMInv cfg (s.remove c).1 := by
  unfold SMState.remove
  obtain ⟨hsurv, hnodup, hmapc, hmapne, hentries⟩ :=
    cancelMappedTimer_inv s c hinv
  constructor
  · exact hnodup
  · intro t ht
    rw [cancelMappedTimer_nextTimerId]
    exact hinv.idsLt t (hsurv t ht).1
  · intro t ht
    rw [hmapne t.owner (hsurv t ht).2]
    exact hinv.mapped t (hsurv t ht).1
  · intro c' tid hl
    by_cases hc : c' = c
    · rw [hc, hmapc] at hl
      cases hl
    · rw [hmapne c' hc] at hl
      exact hentries c' tid hc hl
  · intro t ht
    rw [lookup_mapDelete_ne _ c _ (hsurv t ht).2, cancelMappedTimer_sessions]
    exact hinv.sessTimer t (hsurv t ht).1
  · intro hdis
    obtain ⟨hlive, hmap⟩ := hinv.disabledEmpty hdis
    constructor
    · unfold SMState.cancelMappedTimer
      rw [hmap]
      exact hlive
    · unfold SMState.cancelMappedTimer
      rw [hmap]
      exact hmap

/-- `clear` preserves the timer invariant (it empties everything). -/
theorem smInv_clear {D : Type} {cfg : SMConfig} {s : SMState D}
    (hinv : SMInv cfg s) : SMInv cfg s.clear := by
  have hlive : s.clear.liveTimers = [] := by
    unfold SMState.clear
    apply filter_eq_nil_of_false
    intro t ht
    have h2 := hinv.mapped t ht
    have h3 : (t.owner, t.id) ∈ s.disconnectTimers :=
      lookup_mem _ _ _ h2
    have h4 : t.id ∈ s.disconnectTimers.map (·.2) :=
      List.mem_map.mpr ⟨(t.owner, t.id), h3, rfl⟩
    simp [h4]
  constructor
  · rw [hlive]; exact List.nodup_nil
  · intro t ht; rw [hlive] at ht; cases ht
  · intro t ht; rw [hlive] at ht; cases ht
  · intro c' tid hl
    cases hl
  · intro t ht; rw [hlive] at ht; cases ht
  · intro _; exact ⟨hlive, rfl⟩

/-- `fireTimer` on a scheduled timer preserves the timer invariant. -/
theorem smInv_fireTimer {D : Type} {cfg : SMConfig} {s : SMState D}
    (hinv : SMInv cfg s) (t : Timer) (ht : t ∈ s.liveTimers) :
    SMInv cfg (s.fireTimer t).1 := by
  obtain ⟨sess, hs, hconn⟩ := hinv.sessTimer t ht
  unfold SMState.fireTimer
  simp only [hs]
  have hsurv : ∀ u ∈ s.liveTimers.filter (fun u => u.id != t.id),
      u ∈ s.liveTimers ∧ u.owner ≠ t.owner := by
    intro u hu
    simp only [List.mem_filter] at hu
    refine ⟨hu.1, ?_⟩
    intro howner
    have h1 := hinv.mapped u hu.1
    have h2 := hinv.mapped t ht
    rw [howner, h2] at h1
    have h3 : t.id = u.id := by injection h1
    have h4 := hu.2
    rw [← h3] at h4
    simp at h4
  constructor
  · exact nodup_ids_filter _ _ hinv.nodupIds
  · intro u hu
    exact hinv.idsLt u (hsurv u hu).1
  · intro u hu
    rw [lookup_mapDelete_ne _ t.owner _ (hsurv u hu).2]
    exact hinv.mapped u (hsurv u hu).1
  · intro c' tid hl
    by_cases hc : c' = t.owner
    · rw [hc, lookup_mapDelete_self] at hl
      cases hl
    · rw [lookup_mapDelete_ne _ t.owner c' hc] at hl
      obtain ⟨u, hu, hid, howner⟩ := hinv.entries c' tid hl
      refine ⟨u, ?_, hid, howner⟩
      simp only [List.mem_filter]
      refine ⟨hu, ?_⟩
      by_cases hsame : u.id = t.id
      · have : u = t := timer_eq_of_id_eq hinv.nodupIds hu ht hsame
        rw [this] at howner
        exact absurd howner.symm hc
      · simp [hsame]
  · intro u hu
    rw [lookup_mapDelete_ne _ t.owner _ (hsurv u hu).2]
    exact hinv.sessTimer u (hsurv u hu).1
  · intro hdis
    obtain ⟨hlive, -⟩ := hinv.disabledEmpty hdis
    rw [hlive] at ht
    cases ht

/-- One `SessionManager` step under the `goodOp` guard preserves the
timer invariant. -/
theorem smInv_step {D : Type} {cfg : SMConfig} {s : SMState D}
    (hinv : SMInv cfg s) (op : SMOp D) (hgood : s.goodOp op = true) :
    SMInv cfg (s.step cfg op).1 := by
  cases op with
  | connect c ctx d => exact smInv_connect hinv c ctx d
  | disconnect c => exact smInv_disconnect hinv c hgood
  | remove c => exact smInv_remove hinv c
  | clear => exact smInv_clear hinv
  | advance d =>
      constructor
      · exact hinv.nodupIds
      · exact hinv.idsLt
      · exact hinv.mapped
      · exact hinv.entries
      · exact hinv.sessTimer
      · exact hinv.disabledEmpty
  | fire tid =>
      unfold SMState.step
      cases hfind : s.liveTimers.find? (fun t => t.id == tid) with
      | none => simpa only [hfind] using hinv
      | some t =>
          simp only [hfind]
          by_cases hfire : t.fireAt ≤ s.now
          · rw [if_pos hfire]
            exact smInv_fireTimer hinv t (List.mem_of_find?_eq_some hfind)
          · rw [if_neg hfire]
            exact hinv

end PartyKit

namespace PartyKit

/-- The invariant holds in the initial state. -/
theorem smInv_init {D : Type} (cfg : SMConfig) : SMInv cfg (SMState.init D) := by
  constructor
  · exact List.nodup_nil
  · intro t ht; cases ht
  · intro t ht; cases ht
  · intro c tid hl; cases hl
  · intro t ht; cases ht
  · intro _; exact ⟨rfl, rfl⟩

/-- The invariant holds after any guarded run. -/
theorem smInv_run {D : Type} (cfg : SMConfig) (ops : List (SMOp D)) :
    ∀ s : SMState D, SMInv cfg s → GoodTrace cfg s ops →
      SMInv cfg (s.run cfg ops).1 := by
  induction ops with
  | nil =>
      intro s hinv _
      simpa only [SMState.run] using hinv
  | cons op rest ih =>
      intro s hinv hgood
      cases hgood with
      | cons hop hrest =>
          simp only [SMState.run]
          exact ih _ (smInv_step hinv op hop) hrest

/-- A timer list with nodup ids all equal to one value has at most one
element. -/
theorem length_le_one_of_ids_const (l : List Timer)
    (hnodup : (l.map Timer.id).Nodup) (k : Nat)
    (hall : ∀ t ∈ l, t.id = k) : l.length ≤ 1 := by
  cases l with
  | nil => simp
  | cons a rest =>
      cases rest with
      | nil => simp
      | cons b rest2 =>
          exfalso
          have ha := hall a (by simp)
          have hb := hall b (by simp)
          simp only [List.map_cons, List.nodup_cons] at hnodup
          apply hnodup.1
          have hab : a.id = b.id := by rw [ha, hb]
          rw [hab]
          simp

/-- Under the invariant, at most one timer per client is scheduled. -/
theorem ownedTimers_le_one {D : Type} {cfg : SMConfig} {s : SMState D}
    (hinv : SMInv cfg s) (c : String) :
    (s.ownedTimers c).length ≤ 1 := by
  unfold SMState.ownedTimers
  cases hmap : s.disconnectTimers.lookup c with
  | none =>
      rw [filter_eq_nil_of_false]
      · simp
      · intro t ht
        by_cases hc : t.owner = c
        · have h2 := hinv.mapped t ht
          rw [hc, hmap] at h2
          cases h2
        · simp [hc]
  | some tid =>
      apply length_le_one_of_ids_const _
        (nodup_ids_filter _ _ hinv.nodupIds) tid
      intro t ht
      simp only [List.mem_filter] at ht
      have hc : t.owner = c := by simpa using ht.2
      have h2 := hinv.mapped t ht.1
      rw [hc, hmap] at h2
      injection h2 with h2
      exact h2.symm

/-- C2 (amended): over every run of the public operations in which
`disconnect` is only invoked for clients whose session is currently
connected, at most one grace-period timer per client id is scheduled at
any time.  (The unguarded claim is false — see the counterexample: a
second `disconnect` without an intervening `connect` leaks the first
timer, because `disconnect` overwrites the `disconnectTimers` entry
without `clearTimeout`.) -/
theorem at_most_one_timer_per_client {D : Type} (cfg : SMConfig)
    (ops : List (SMOp D))
    (hgood : GoodTrace cfg (SMState.init D) ops) :
    ∀ c, (((SMState.init D).run cfg ops).1.ownedTimers c).length ≤ 1 :=
  fun c => ownedTimers_le_one (smInv_run cfg ops _ (smInv_init cfg) hgood) c

/-- Witness for the amended C2 on a concrete guarded
connect/disconnect/reconnect/disconnect run. -/
theorem at_most_one_timer_per_client_witness :
    (((SMState.init Unit).run ⟨true, 60000⟩
        [.connect "c1" ClientContext.empty none, .disconnect "c1",
          .connect "c1" ClientContext.empty none,
          .disconnect "c1"]).1.ownedTimers "c1").length ≤ 1 := by
  apply at_most_one_timer_per_client (D := Unit) ⟨true, 60000⟩ _ ?_ "c1"
  exact GoodTrace.cons (by decide)
    (GoodTrace.cons (by decide)
      (GoodTrace.cons (by decide)
        (GoodTrace.cons (by decide) (GoodTrace.nil _))))

end PartyKit

namespace PartyKit

/-- C8: a transport-level disconnect with no tracked context yields
`PresenceTracker.onLeave = none` and the adapter broadcasts nothing; a
`presence(LEAVE)` broadcast happens exactly when a context is tracked,
and then goes to all connected clients. -/
theorem onLeave_requires_tracked_context (room : RoomState)
    (client : Client) :
    (room.presence.get client.sessionId = none →
      ((room.presence.onLeave client).2 = none ∧
        (room.onLeave client).2 = [])) ∧
    (∀ ctx, room.presence.get client.sessionId = some ctx →
      ((room.presence.onLeave client).2 =
        some ⟨.leave, PresenceTracker.toProtoClient ctx⟩ ∧
      ∃ env, (room.onLeave client).2 =
        [.bcast (room.clients.map (·.sessionId)) "partykit/presence" env] ∧
        env.data =
          some (.presence ⟨.leave, PresenceTracker.toProtoClient ctx⟩))) := by
  constructor
  · intro hnone
    constructor
    · simp [PresenceTracker.onLeave, hnone]
    · simp [RoomState.onLeave, PresenceTracker.onLeave, hnone]
  · intro ctx hsome
    constructor
    · simp [PresenceTracker.onLeave, hsome]
    · simp only [RoomState.onLeave, PresenceTracker.onLeave, hsome,
        RoomState.broadcastEnvelope]
      exact ⟨_, rfl, rfl⟩

/-- Witness for C8: in the demo room nothing is broadcast for an
unknown session, while a tracked one triggers the LEAVE broadcast. -/
theorem onLeave_requires_tracked_context_witness :
    (demoRoom.presence.get "sX" = none ∧
      (demoRoom.onLeave ⟨"sX"⟩).2 = []) ∧
    (let room2 : RoomState := { demoRoom with
        presence := demoRoom.presence.set "sA" (demoCtx "sA") }
     room2.presence.get "sA" = some (demoCtx "sA") ∧
       (room2.presence.onLeave ⟨"sA"⟩).2 =
         some ⟨.leave, PresenceTracker.toProtoClient (demoCtx "sA")⟩) := by
  refine ⟨⟨by decide, ?_⟩, by decide, ?_⟩
  · exact ((onLeave_requires_tracked_context demoRoom ⟨"sX"⟩).1
      (by decide)).2
  · exact ((onLeave_requires_tracked_context _ ⟨"sA"⟩).2 (demoCtx "sA")
      (by decide)).1

/-- C5: a game-event hook error is caught and answered with exactly one
`INTERNAL`, retryable error envelope correlated to the offending
envelope and addressed only to the sender; the handler returns normally
and nothing is sent to anyone else. -/
theorem gameEvent_hook_error_isolated (hooks : GameHooks)
    (room : RoomState) (client : Client) (env : Envelope) (ev : GameEvent)
    (ctx : ClientContext) (msg : String)
    (hunpack : env.unpackGameEvent = some ev)
    (hctx : room.presence.get client.sessionId = some ctx)
    (hthrow : hooks.onPartyKitGameEvent ctx ev = .error msg) :
    ∃ errEnv,
      (room.handleGameEvent hooks client env).2 =
        [.gameHook client.sessionId ctx ev,
          .sent client.sessionId "partykit/error" errEnv] ∧
      errEnv.data = some (.error ⟨"INTERNAL", msg, true, []⟩) ∧
      errEnv.replyTo = env.id ∧
      errEnv.to_ = client.sessionId := by
  simp only [RoomState.handleGameEvent, hunpack, hctx, hthrow,
    RoomState.sendError, RoomState.sendEnvelope]
  exact ⟨_, rfl, rfl, rfl, rfl⟩

/-- Witness for C5 on a concrete throwing hook. -/
theorem gameEvent_hook_error_isolated_witness :
    (let room2 : RoomState := { demoRoom with
        presence := demoRoom.presence.set "sA" (demoCtx "sA") }
     let env := demoEnv "game/event" (some (.gameEvent ⟨"start_game", []⟩))
     env.unpackGameEvent = some ⟨"start_game", []⟩ ∧
       room2.presence.get "sA" = some (demoCtx "sA") ∧
       demoHooksThrowing.onPartyKitGameEvent (demoCtx "sA")
         ⟨"start_game", []⟩ = .error "unauthorized" ∧
       ∃ errEnv,
         (room2.handleGameEvent demoHooksThrowing ⟨"sA"⟩ env).2 =
           [.gameHook "sA" (demoCtx "sA") ⟨"start_game", []⟩,
             .sent "sA" "partykit/error" errEnv] ∧
         errEnv.data = some (.error ⟨"INTERNAL", "unauthorized", true, []⟩) ∧
         errEnv.replyTo = "e1" ∧
         errEnv.to_ = "sA") := by
  refine ⟨rfl, by decide, rfl, ?_⟩
  exact gameEvent_hook_error_isolated demoHooksThrowing _ ⟨"sA"⟩ _
    ⟨"start_game", []⟩ (demoCtx "sA") "unauthorized" rfl (by decide) rfl

end PartyKit

namespace PartyKit

/-- C4 (amended): the game-event hook runs exactly when a context is
tracked for the sender's transport session — which happens at a
successful `hello`, not at `room.join`.  Without a tracked context (no
prior hello) the reply is `UNAUTHORIZED` and no hook runs. -/
theorem gameEvent_requires_tracked_context (hooks : GameHooks)
    (room : RoomState) (client : Client) (env : Envelope) (ev : GameEvent)
    (hunpack : env.unpackGameEvent = some ev) :
    (room.presence.get client.sessionId = none →
      ((∃ errEnv,
          (room.handleGameEvent hooks client env).2 =
            [.sent client.sessionId "partykit/error" errEnv] ∧
          errEnv.data = some (.error ⟨"UNAUTHORIZED",
            "Must be joined to send game events.", false, []⟩) ∧
          errEnv.replyTo = env.id) ∧
        ∀ e ∈ (room.handleGameEvent hooks client env).2,
          e.isGameHook = false)) ∧
    (∀ ctx, room.presence.get client.sessionId = some ctx →
      .gameHook client.sessionId ctx ev ∈
        (room.handleGameEvent hooks client env).2) := by
  constructor
  · intro hnone
    constructor
    · simp only [RoomState.handleGameEvent, hunpack, hnone,
        RoomState.sendError, RoomState.sendEnvelope]
      exact ⟨_, rfl, rfl, rfl⟩
    · intro e he
      simp only [RoomState.handleGameEvent, hunpack, hnone,
        RoomState.sendError, RoomState.sendEnvelope,
        List.mem_singleton] at he
      rw [he]
      rfl
  · intro ctx hsome
    simp only [RoomState.handleGameEvent, hunpack, hsome]
    cases hooks.onPartyKitGameEvent ctx ev with
    | ok _ => simp
    | error msg =>
        simp [RoomState.sendError, RoomState.sendEnvelope]

/-- Witness for the amended C4: no hello means `UNAUTHORIZED` and no
hook; after hello (but no join) the hook is reachable. -/
theorem gameEvent_requires_tracked_context_witness :
    (let env := demoEnv "game/event" (some (.gameEvent ⟨"answer", []⟩))
     env.unpackGameEvent = some ⟨"answer", []⟩ ∧
       demoRoom.presence.get "sA" = none ∧
       (∀ e ∈ (demoRoom.handleGameEvent demoHooks ⟨"sA"⟩ env).2,
         e.isGameHook = false)) := by
  refine ⟨rfl, by decide, ?_⟩
  exact ((gameEvent_requires_tracked_context demoHooks demoRoom ⟨"sA"⟩
    (demoEnv "game/event" (some (.gameEvent ⟨"answer", []⟩)))
    ⟨"answer", []⟩ rfl).1 (by decide)).2

/-- C4 counterexample: a client that completed `hello` but never sent
`room.join` (the trace below provably contains no `room.join`) is not in
the JOINED state, yet its `game.event` invokes the game hook and no
`UNAUTHORIZED` error is sent — the adapter only checks the presence map,
which is populated at hello. -/
theorem gameEvent_before_join_invokes_hook :
    (let ops : List RoomOp :=
      [.msg ⟨"sA"⟩ .hello (demoEnv "partykit/hello"
          (some (.hello ⟨"controller", "Ann", none, none⟩))),
        .msg ⟨"sA"⟩ .gameEvent (demoEnv "game/event"
          (some (.gameEvent ⟨"start_game", []⟩)))]
     let evs := (demoRoom.runRoom demoHooks ops).2
     ops.filter (fun op =>
        match op with
        | .msg _ .roomJoin _ => true
        | _ => false) = [] ∧
       (evs.filter (·.isGameHook)).length = 1 ∧
       ∀ e ∈ evs, e.errorCode ≠ some "UNAUTHORIZED") := by
  exact ⟨by decide, by decide, by decide⟩

end PartyKit

namespace PartyKit

/-- C3 (amended, positive half): in the `EnvelopeCodec`-based adapter,
every registered message type answers a payload that fails to unpack
with exactly one `BAD_REQUEST` error envelope whose `replyTo` is the
offending envelope's id, addressed to the sender — never a silent
drop. -/
theorem malformed_payload_bad_request (hooks : GameHooks)
    (room : RoomState) (client : Client) (mtype : MsgType) (env : Envelope)
    (hfail : mtype.unpackOk env = false) :
    ∃ errEnv msg,
      (room.handleMessage hooks client mtype env).2 =
        [.sent client.sessionId "partykit/error" errEnv] ∧
      errEnv.data = some (.error ⟨"BAD_REQUEST", msg, false, []⟩) ∧
      errEnv.replyTo = env.id ∧
      errEnv.to_ = client.sessionId := by
  cases mtype with
  | hello =>
      cases hu : env.unpackHello with
      | some h =>
          rw [MsgType.unpackOk, hu] at hfail
          cases hfail
      | none =>
          simp only [RoomState.handleMessage, RoomState.handleHello, hu,
            RoomState.sendError, RoomState.sendEnvelope]
          exact ⟨_, _, rfl, rfl, rfl, rfl⟩
  | roomJoin =>
      cases hu : env.unpackRoomJoin with
      | some h =>
          rw [MsgType.unpackOk, hu] at hfail
          cases hfail
      | none =>
          simp only [RoomState.handleMessage, RoomState.handleRoomJoin, hu,
            RoomState.sendError, RoomState.sendEnvelope]
          exact ⟨_, _, rfl, rfl, rfl, rfl⟩
  | stateRequest =>
      cases hu : env.unpackStateRequest with
      | some h =>
          rw [MsgType.unpackOk, hu] at hfail
          cases hfail
      | none =>
          simp only [RoomState.handleMessage, RoomState.handleStateRequest,
            hu, RoomState.sendError, RoomState.sendEnvelope]
          exact ⟨_, _, rfl, rfl, rfl, rfl⟩
  | ping =>
      cases hu : env.unpackPing with
      | some h =>
          rw [MsgType.unpackOk, hu] at hfail
          cases hfail
      | none =>
          simp only [RoomState.handleMessage, RoomState.handlePing, hu,
            RoomState.sendError, RoomState.sendEnvelope]
          exact ⟨_, _, rfl, rfl, rfl, rfl⟩
  | gameEvent =>
      cases hu : env.unpackGameEvent with
      | some h =>
          rw [MsgType.unpackOk, hu] at hfail
          cases hfail
      | none =>
          simp only [RoomState.handleMessage, RoomState.handleGameEvent, hu,
            RoomState.sendError, RoomState.sendEnvelope]
          exact ⟨_, _, rfl, rfl, rfl, rfl⟩

/-- Witness for the amended C3: a payload-less game event envelope gets
a `BAD_REQUEST` reply correlated to it. -/
theorem malformed_payload_bad_request_witness :
    MsgType.gameEvent.unpackOk (demoEnv "game/event" none) = false ∧
      ∃ errEnv msg,
        (demoRoom.handleMessage demoHooks ⟨"sA"⟩ .gameEvent
            (demoEnv "game/event" none)).2 =
          [.sent "sA" "partykit/error" errEnv] ∧
        errEnv.data = some (.error ⟨"BAD_REQUEST", msg, false, []⟩) ∧
        errEnv.replyTo = "e1" ∧
        errEnv.to_ = "sA" := by
  refine ⟨rfl, ?_⟩
  exact malformed_payload_bad_request demoHooks demoRoom ⟨"sA"⟩ .gameEvent
    (demoEnv "game/event" none) rfl

/-- C3 counterexample: the `EnvelopeBuilder`-based adapter variant
treats an envelope whose payload cannot be unpacked as a silent no-op —
`decodeAndUnpack` returns `null` and the handler just returns, sending
no `BAD_REQUEST` (nor anything else). -/
theorem dc_variant_silently_drops_malformed :
    (demoEnv "partykit/hello" none).unpackHello = none ∧
    (demoRoom.handleHelloDC demoHooks ⟨"sA"⟩
        (demoEnv "partykit/hello" none)).2 = [] := by
  exact ⟨rfl, rfl⟩

end PartyKit

namespace PartyKit

/-- Characterization of the catch-up presence burst: one
`presence(JOIN)` send to the joining client per other tracked context,
in list order; no state change besides the message-id supply; no
snapshot ticks. -/
theorem sendCatchupPresence_spec (client : Client) (ctx : ClientContext) :
    ∀ (l : List ClientContext) (room : RoomState),
      ∃ envs : List Envelope,
        (room.sendCatchupPresence client ctx l).2 =
          envs.map (fun e =>
            REvent.sent client.sessionId "partykit/presence" e) ∧
        envs.map Envelope.data =
          (l.filter (fun ex => ex.clientId != ctx.clientId)).map
            (fun ex =>
              some (.presence ⟨.join, PresenceTracker.toProtoClient ex⟩)) ∧
        (room.sendCatchupPresence client ctx l).1.presence = room.presence ∧
        (room.sendCatchupPresence client ctx l).1.clients = room.clients ∧
        (room.sendCatchupPresence client ctx l).1.tick = room.tick ∧
        (room.sendCatchupPresence client ctx l).1.partyRoomInfo =
          room.partyRoomInfo ∧
        (room.sendCatchupPresence client ctx l).1.now = room.now ∧
        snapTicks (room.sendCatchupPresence client ctx l).2 = [] := by
  intro l
  induction l with
  | nil =>
      intro room
      exact ⟨[], rfl, rfl, rfl, rfl, rfl, rfl, rfl, rfl⟩
  | cons existing rest ih =>
      intro room
      by_cases hc : existing.clientId = ctx.clientId
      · have hc2 : (existing.clientId == ctx.clientId) = true := by simp [hc]
        have hf : (existing.clientId != ctx.clientId) = false := by simp [hc]
        obtain ⟨envs, h1, h2, h3, h4, h5, h6, h7, h8⟩ := ih room
        refine ⟨envs, ?_, ?_, ?_, ?_, ?_, ?_, ?_, ?_⟩
        · simp only [RoomState.sendCatchupPresence, hc2, if_true]
          exact h1
        · simp only [List.filter_cons, hf, Bool.false_eq_true, if_false]
          exact h2
        · simp only [RoomState.sendCatchupPresence, hc2, if_true]
          exact h3
        · simp only [RoomState.sendCatchupPresence, hc2, if_true]
          exact h4
        · simp only [RoomState.sendCatchupPresence, hc2, if_true]
          exact h5
        · simp only [RoomState.sendCatchupPresence, hc2, if_true]
          exact h6
        · simp only [RoomState.sendCatchupPresence, hc2, if_true]
          exact h7
        · simp only [RoomState.sendCatchupPresence, hc2, if_true]
          exact h8
      · have hc2 : (existing.clientId == ctx.clientId) = false := by simp [hc]
        have hf : (existing.clientId != ctx.clientId) = true := by simp [hc]
        obtain ⟨envs, h1, h2, h3, h4, h5, h6, h7, h8⟩ :=
          ih { room with nextMsgId := room.nextMsgId + 1 }
        refine ⟨⟨1, "partykit/presence", genMessageId room.nextMsgId, "",
          room.now, room.partyRoomInfo.id, "server", client.sessionId,
          some (.presence ⟨.join, ⟨existing.clientId, existing.displayName,
            existing.role, existing.metadata⟩⟩)⟩ :: envs,
          ?_, ?_, ?_, ?_, ?_, ?_, ?_, ?_⟩
        · simp only [RoomState.sendCatchupPresence, hc2, Bool.false_eq_true,
            if_false, RoomState.sendEnvelope, List.map_cons]
          rw [h1]
          rfl
        · simp only [List.map_cons, List.filter_cons, hf, if_true]
          rw [h2]
          simp [PresenceTracker.toProtoClient]
        · simp only [RoomState.sendCatchupPresence, hc2, Bool.false_eq_true,
            if_false, RoomState.sendEnvelope]
          exact h3
        · simp only [RoomState.sendCatchupPresence, hc2, Bool.false_eq_true,
            if_false, RoomState.sendEnvelope]
          exact h4
        · simp only [RoomState.sendCatchupPresence, hc2, Bool.false_eq_true,
            if_false, RoomState.sendEnvelope]
          exact h5
        · simp only [RoomState.sendCatchupPresence, hc2, Bool.false_eq_true,
            if_false, RoomState.sendEnvelope]
          exact h6
        · simp only [RoomState.sendCatchupPresence, hc2, Bool.false_eq_true,
            if_false, RoomState.sendEnvelope]
          exact h7
        · simp only [RoomState.sendCatchupPresence, hc2, Bool.false_eq_true,
            if_false, RoomState.sendEnvelope, snapTicks, List.map_cons,
            List.flatten_cons]
          simp only [snapTicks] at h8
          simpa [REvent.stateTicks] using h8

end PartyKit

namespace PartyKit

/-- C6: a successful `room.join` emits, in exactly this order,
`room.joined` (correlated) to the joiner, `self` to the joiner, one
catch-up `presence(JOIN)` per other tracked context to the joiner, one
`presence(JOIN)` broadcast for the joiner delivered to every connected
client except the joiner, the state snapshot to the joiner, and finally
the `onPartyKitJoin` hook. -/
theorem roomJoin_emission_order (hooks : GameHooks) (room : RoomState)
    (client : Client) (env : Envelope) (join : RoomJoin)
    (ctx : ClientContext)
    (hunpack : env.unpackRoomJoin = some join)
    (hctx : room.presence.get client.sessionId = some ctx) :
    ∃ (jEnv sEnv : Envelope) (catchupEnvs : List Envelope)
      (bEnv stEnv : Envelope),
      (room.handleRoomJoin hooks client env).2 =
        .sent client.sessionId "partykit/room/joined" jEnv ::
        .sent client.sessionId "partykit/self" sEnv ::
        ((catchupEnvs.map fun e =>
          REvent.sent client.sessionId "partykit/presence" e) ++
        [.bcast ((room.clients.filter
            (fun c => c.sessionId != client.sessionId)).map (·.sessionId))
            "partykit/presence" bEnv,
          .sent client.sessionId "partykit/state" stEnv,
          .joinHook client.sessionId ctx join]) ∧
      jEnv.replyTo = env.id ∧
      jEnv.data = some (.roomJoined ⟨room.partyRoomInfo⟩) ∧
      sEnv.data = some (.selfMsg ⟨ctx.clientId, ctx.role, ctx.capabilities,
        ctx.reconnectToken.getD "", ctx.groups⟩) ∧
      catchupEnvs.map Envelope.data =
        ((room.presence.list.filter
            (fun ex => ex.clientId != ctx.clientId)).map
          (fun ex => some (.presence ⟨.join,
            PresenceTracker.toProtoClient ex⟩))) ∧
      bEnv.data = some (.presence ⟨.join,
        PresenceTracker.toProtoClient ctx⟩) ∧
      stEnv.data = some (.stateUpdate ⟨.snapshot, room.tick + 1,
        hooks.getStateSnapshot ctx⟩) := by
  obtain ⟨envs, h1, h2, h3, h4, h5, h6, h7, h8⟩ :=
    sendCatchupPresence_spec client ctx room.presence.list
      { room with nextMsgId := room.nextMsgId + 1 + 1 }
  dsimp only at h1 h3 h4 h5 h6 h7
  refine ⟨⟨1, "partykit/room/joined", genMessageId room.nextMsgId, env.id,
      room.now, room.partyRoomInfo.id, "server", client.sessionId,
      some (.roomJoined ⟨room.partyRoomInfo⟩)⟩,
    ⟨1, "partykit/self", genMessageId (room.nextMsgId + 1), "", room.now,
      room.partyRoomInfo.id, "server", client.sessionId,
      some (.selfMsg ⟨ctx.clientId, ctx.role, ctx.capabilities,
        ctx.reconnectToken.getD "", ctx.groups⟩)⟩,
    envs,
    ⟨1, "partykit/presence",
      genMessageId (({ room with nextMsgId := room.nextMsgId + 1 + 1 } :
        RoomState).sendCatchupPresence client ctx
          room.presence.list).1.nextMsgId, "", room.now,
      room.partyRoomInfo.id, "server", "broadcast",
      some (.presence ⟨.join, PresenceTracker.toProtoClient ctx⟩)⟩,
    ⟨1, "partykit/state",
      genMessageId ((({ room with nextMsgId := room.nextMsgId + 1 + 1 } :
        RoomState).sendCatchupPresence client ctx
          room.presence.list).1.nextMsgId + 1), "", room.now,
      room.partyRoomInfo.id, "server", client.sessionId,
      some (.stateUpdate ⟨.snapshot, room.tick + 1,
        hooks.getStateSnapshot ctx⟩)⟩,
    ?_, rfl, rfl, rfl, h2, rfl, rfl⟩
  simp only [RoomState.handleRoomJoin, hunpack, hctx,
    RoomState.sendEnvelope, RoomState.broadcastEnvelope,
    RoomState.sendStateSnapshotTo, PresenceTracker.onJoin]
  rw [h1, h4, h5, h6, h7]
  rfl

end PartyKit

namespace PartyKit

/-- Witness for C6 on a concrete three-client room where `"sA"` is
already tracked and `"sB"` joins after its hello. -/
theorem roomJoin_emission_order_witness :
    (let room2 : RoomState := { demoRoom with
        presence := (demoRoom.presence.set "sA" (demoCtx "sA")).set "sB"
          (demoCtx "sB") }
     let env := demoEnv "partykit/room/join" (some (.roomJoin ⟨()⟩))
     env.unpackRoomJoin = some ⟨()⟩ ∧
       room2.presence.get "sB" = some (demoCtx "sB") ∧
       ∃ (jEnv sEnv : Envelope) (catchupEnvs : List Envelope)
         (bEnv stEnv : Envelope),
         (room2.handleRoomJoin demoHooks ⟨"sB"⟩ env).2 =
           .sent "sB" "partykit/room/joined" jEnv ::
           .sent "sB" "partykit/self" sEnv ::
           ((catchupEnvs.map fun e =>
             REvent.sent "sB" "partykit/presence" e) ++
           [.bcast ((room2.clients.filter
               (fun c => c.sessionId != "sB")).map (·.sessionId))
               "partykit/presence" bEnv,
             .sent "sB" "partykit/state" stEnv,
             .joinHook "sB" (demoCtx "sB") ⟨()⟩]) ∧
         jEnv.replyTo = "e1" ∧
         jEnv.data = some (.roomJoined ⟨room2.partyRoomInfo⟩) ∧
         sEnv.data = some (.selfMsg ⟨"sB", 2, [], "", []⟩) ∧
         catchupEnvs.map Envelope.data =
           ((room2.presence.list.filter
               (fun ex => ex.clientId != "sB")).map
             (fun ex => some (.presence ⟨.join,
               PresenceTracker.toProtoClient ex⟩))) ∧
         bEnv.data = some (.presence ⟨.join,
           PresenceTracker.toProtoClient (demoCtx "sB")⟩) ∧
         stEnv.data = some (.stateUpdate ⟨.snapshot, room2.tick + 1,
           demoHooks.getStateSnapshot (demoCtx "sB")⟩)) := by
  refine ⟨rfl, by decide, ?_⟩
  exact roomJoin_emission_order demoHooks _ ⟨"sB"⟩
    (demoEnv "partykit/room/join" (some (.roomJoin ⟨()⟩))) ⟨()⟩
    (demoCtx "sB") rfl (by decide)

end PartyKit

namespace PartyKit

/-- Each room action advances `tick` by exactly the number of snapshot
emissions it performs, and those snapshots carry the consecutive ticks
starting right above the old value. -/
theorem stepRoom_ticks (hooks : GameHooks) (room : RoomState)
    (op : RoomOp) :
    ∃ k, (room.stepRoom hooks op).1.tick = room.tick + k ∧
      snapTicks (room.stepRoom hooks op).2 =
        List.range' (room.tick + 1) k := by
  cases op with
  | leave client =>
      refine ⟨0, ?_, ?_⟩ <;>
        · unfold RoomState.stepRoom RoomState.onLeave
          cases h : (room.presence.onLeave client).2 <;>
            simp [h, RoomState.broadcastEnvelope, snapTicks, REvent.stateTicks]
  | broadcastState =>
      refine ⟨1, ?_, ?_⟩ <;>
        simp [RoomState.stepRoom, RoomState.broadcastStateUpdate,
          RoomState.broadcastEnvelope, snapTicks, REvent.stateTicks]
  | msg client mtype env =>
      cases mtype with
      | hello =>
          refine ⟨0, ?_, ?_⟩ <;>
            · unfold RoomState.stepRoom RoomState.handleMessage
                RoomState.handleHello
              cases hu : env.unpackHello with
              | none =>
                  simp [hu, RoomState.sendError, RoomState.sendEnvelope,
                    snapTicks, REvent.stateTicks]
              | some h =>
                  cases ha : hooks.authorizeHello client h <;>
                    simp [hu, ha, RoomState.sendError, RoomState.sendEnvelope,
                      snapTicks, REvent.stateTicks]
      | ping =>
          refine ⟨0, ?_, ?_⟩ <;>
            · unfold RoomState.stepRoom RoomState.handleMessage
                RoomState.handlePing
              cases hu : env.unpackPing with
              | none =>
                  simp [hu, RoomState.sendError, RoomState.sendEnvelope,
                    snapTicks, REvent.stateTicks]
              | some h =>
                  simp [hu, RoomState.sendEnvelope, snapTicks,
                    REvent.stateTicks]
      | gameEvent =>
          refine ⟨0, ?_, ?_⟩ <;>
            · unfold RoomState.stepRoom RoomState.handleMessage
                RoomState.handleGameEvent
              cases hu : env.unpackGameEvent with
              | none =>
                  simp [hu, RoomState.sendError, RoomState.sendEnvelope,
                    snapTicks, REvent.stateTicks]
              | some ev =>
                  cases hctx : room.presence.get client.sessionId with
                  | none =>
                      simp [hu, hctx, RoomState.sendError,
                        RoomState.sendEnvelope, snapTicks, REvent.stateTicks]
                  | some ctx =>
                      cases hg : hooks.onPartyKitGameEvent ctx ev <;>
                        simp [hu, hctx, hg, RoomState.sendError,
                          RoomState.sendEnvelope, snapTicks,
                          REvent.stateTicks]
      | stateRequest =>
          unfold RoomState.stepRoom RoomState.handleMessage
            RoomState.handleStateRequest
          cases hu : env.unpackStateRequest with
          | none =>
              refine ⟨0, ?_, ?_⟩ <;>
                simp [hu, RoomState.sendError, RoomState.sendEnvelope,
                  snapTicks, REvent.stateTicks]
          | some h =>
              cases hctx : room.presence.get client.sessionId with
              | none =>
                  refine ⟨0, ?_, ?_⟩ <;>
                    simp [hu, hctx, RoomState.sendError,
                      RoomState.sendEnvelope, snapTicks, REvent.stateTicks]
              | some ctx =>
                  refine ⟨1, ?_, ?_⟩ <;>
                    simp [hu, hctx, RoomState.sendStateSnapshotTo,
                      RoomState.sendEnvelope, snapTicks, REvent.stateTicks]
      | roomJoin =>
          unfold RoomState.stepRoom RoomState.handleMessage
            RoomState.handleRoomJoin
          cases hu : env.unpackRoomJoin with
          | none =>
              refine ⟨0, ?_, ?_⟩ <;>
                simp [hu, RoomState.sendError, RoomState.sendEnvelope,
                  snapTicks, REvent.stateTicks]
          | some join =>
              cases hctx : room.presence.get client.sessionId with
              | none =>
                  refine ⟨0, ?_, ?_⟩ <;>
                    simp [hu, hctx, RoomState.sendError,
                      RoomState.sendEnvelope, snapTicks, REvent.stateTicks]
              | some ctx =>
                  obtain ⟨envs, h1, h2, h3, h4, h5, h6, h7, h8⟩ :=
                    sendCatchupPresence_spec client ctx room.presence.list
                      { room with nextMsgId := room.nextMsgId + 1 + 1 }
                  refine ⟨1, ?_, ?_⟩
                  · simp only [hu, hctx, RoomState.sendEnvelope,
                      RoomState.broadcastEnvelope,
                      RoomState.sendStateSnapshotTo, PresenceTracker.onJoin]
                    rw [h5]
                  · simp only [hu, hctx, RoomState.sendEnvelope,
                      RoomState.broadcastEnvelope,
                      RoomState.sendStateSnapshotTo, PresenceTracker.onJoin,
                      snapTicks, List.map_cons, List.map_append,
                      List.flatten_cons, List.flatten_append]
                    simp only [snapTicks] at h8
                    rw [h1] at h8
                    rw [h1, h8, h5]
                    simp [REvent.stateTicks]

end PartyKit

namespace PartyKit

/-- Across a whole run, the snapshots carry exactly the consecutive
ticks above the starting value, and `tick` ends at the start plus the
number of emissions. -/
theorem runRoom_ticks (hooks : GameHooks) (ops : List RoomOp) :
    ∀ room : RoomState, ∃ n,
      (room.runRoom hooks ops).1.tick = room.tick + n ∧
      snapTicks (room.runRoom hooks ops).2 =
        List.range' (room.tick + 1) n := by
  induction ops with
  | nil =>
      intro room
      exact ⟨0, rfl, rfl⟩
  | cons op rest ih =>
      intro room
      obtain ⟨k, hk1, hk2⟩ := stepRoom_ticks hooks room op
      obtain ⟨m, hm1, hm2⟩ := ih (room.stepRoom hooks op).1
      refine ⟨k + m, ?_, ?_⟩
      · simp only [RoomState.runRoom]
        rw [hm1, hk1, Nat.add_assoc]
      · simp only [RoomState.runRoom, snapTicks, List.map_append,
          List.flatten_append]
        simp only [snapTicks] at hk2 hm2
        rw [hk2, hm2, hk1]
        have : room.tick + k + 1 = room.tick + 1 + k := by omega
        rw [this, List.range'_append_1]
        rw [Nat.add_comm m k]

/-- C7: within one room lifetime, `tick` increments exactly once per
snapshot emission — whether triggered by a join, a `state.request`, or
the explicit `broadcastStateUpdate` — each emitted snapshot carries a
tick strictly greater than every earlier one, and `tick` never
decreases or resets. -/
theorem tick_strictly_increases (hooks : GameHooks) (room : RoomState)
    (ops : List RoomOp) :
    ((room.runRoom hooks ops).1.tick =
      room.tick + (snapTicks (room.runRoom hooks ops).2).length) ∧
    (snapTicks (room.runRoom hooks ops).2 =
      List.range' (room.tick + 1)
        (snapTicks (room.runRoom hooks ops).2).length) ∧
    List.Pairwise (· < ·) (snapTicks (room.runRoom hooks ops).2) ∧
    room.tick ≤ (room.runRoom hooks ops).1.tick := by
  obtain ⟨n, h1, h2⟩ := runRoom_ticks hooks ops room
  have hlen : (snapTicks (room.runRoom hooks ops).2).length = n := by
    rw [h2, List.length_range']
  refine ⟨?_, ?_, ?_, ?_⟩
  · rw [hlen, h1]
  · rw [hlen, h2]
  · rw [h2]
    exact List.pairwise_lt_range' _ n 1 (by simp)
  · rw [h1]
    exact Nat.le_add_right _ _

end PartyKit

namespace PartyKit

/-! ### JSON codec round-trip -/

theorem jsonToOptStr_rt (o : Option String) :
    jsonToOptStr (optStrToJson o) = some o := by
  cases o <;> rfl

theorem jsonStrs_rt (l : List String) :
    jsonStrs (l.map .str) = some l := by
  induction l with
  | nil => rfl
  | cons s rest ih => simp [jsonStrs, ih]

theorem jsonToStrList_rt (l : List String) :
    jsonToStrList (strListToJson l) = some l := by
  simp [jsonToStrList, strListToJson, jsonStrs_rt]

theorem jsonMetaFields_rt (l : List (String × String)) :
    jsonMetaFields (l.map fun p => (p.1, .str p.2)) = some l := by
  induction l with
  | nil => rfl
  | cons p rest ih =>
      rcases p with ⟨k, v⟩
      simp [jsonMetaFields, ih]

theorem jsonToMeta_rt (l : List (String × String)) :
    jsonToMeta (metaToJson l) = some l := by
  simp [jsonToMeta, metaToJson, jsonMetaFields_rt]

theorem jsonNums_rt (l : List Nat) :
    jsonNums (l.map .num) = some l := by
  induction l with
  | nil => rfl
  | cons n rest ih => simp [jsonNums, ih]

theorem jsonToBytes_rt (l : List Nat) :
    jsonToBytes (bytesToJson l) = some l := by
  simp [jsonToBytes, bytesToJson, jsonNums_rt]

theorem clientContext_json_rt (c : ClientContext) :
    ClientContext.fromJson c.toJson = some c := by
  cases c
  simp [ClientContext.toJson, ClientContext.fromJson, jsonToStrList_rt,
    jsonToMeta_rt, jsonToOptStr_rt]

theorem optCtx_json_rt (o : Option ClientContext) :
    jsonToOptCtx (optCtxToJson o) = some o := by
  cases o with
  | none => rfl
  | some c =>
      cases c
      simp [optCtxToJson, jsonToOptCtx, ClientContext.toJson,
        ClientContext.fromJson, jsonToStrList_rt, jsonToMeta_rt,
        jsonToOptStr_rt]

end PartyKit

namespace PartyKit

theorem hello_json_rt (m : Hello) : Hello.fromJson m.toJson = some m := by
  cases m
  simp [Hello.toJson, Hello.fromJson, jsonToOptStr_rt]

theorem helloOk_json_rt (m : HelloOk) : HelloOk.fromJson m.toJson = some m := by
  cases m
  simp [HelloOk.toJson, HelloOk.fromJson, optCtx_json_rt]

theorem roomJoin_json_rt (m : RoomJoin) :
    RoomJoin.fromJson m.toJson = some m := by
  cases m
  rfl

theorem roomInfoP_json_rt (m : RoomInfoP) :
    RoomInfoP.fromJson m.toJson = some m := by
  cases m
  rfl

theorem roomJoined_json_rt (m : RoomJoined) :
    RoomJoined.fromJson m.toJson = some m := by
  cases m
  simp [RoomJoined.toJson, RoomJoined.fromJson, roomInfoP_json_rt]

theorem gameEvent_json_rt (m : GameEvent) :
    GameEvent.fromJson m.toJson = some m := by
  cases m
  simp [GameEvent.toJson, GameEvent.fromJson, jsonToBytes_rt]

theorem presenceKind_rt (k : PresenceKind) :
    PresenceKind.fromNat k.toNat = some k := by
  cases k <;> rfl

theorem pclient_json_rt (m : PClient) : PClient.fromJson m.toJson = some m := by
  cases m
  simp [PClient.toJson, PClient.fromJson, jsonToMeta_rt]

theorem presenceEvent_json_rt (m : PresenceEvent) :
    PresenceEvent.fromJson m.toJson = some m := by
  cases m
  simp [PresenceEvent.toJson, PresenceEvent.fromJson, presenceKind_rt,
    pclient_json_rt]

theorem selfMsg_json_rt (m : SelfMsg) : SelfMsg.fromJson m.toJson = some m := by
  cases m
  simp [SelfMsg.toJson, SelfMsg.fromJson, jsonToStrList_rt]

theorem errorMsg_json_rt (m : ErrorMsg) :
    ErrorMsg.fromJson m.toJson = some m := by
  cases m
  simp [ErrorMsg.toJson, ErrorMsg.fromJson, jsonToBytes_rt]

theorem ping_json_rt (m : Ping) : Ping.fromJson m.toJson = some m := by
  cases m
  rfl

theorem pong_json_rt (m : Pong) : Pong.fromJson m.toJson = some m := by
  cases m
  rfl

theorem stateRequest_json_rt (m : StateRequest) :
    StateRequest.fromJson m.toJson = some m := by
  cases m
  rfl

theorem stateUpdateKind_rt (k : StateUpdateKind) :
    StateUpdateKind.fromNat k.toNat = some k := by
  cases k <;> rfl

theorem stateUpdate_json_rt (m : StateUpdate) :
    StateUpdate.fromJson m.toJson = some m := by
  cases m
  simp [StateUpdate.toJson, StateUpdate.fromJson, stateUpdateKind_rt,
    jsonToBytes_rt]

theorem any_json_rt (m : PMsg) : anyFromJson (anyToJson m) = some m := by
  cases m <;>
    simp +decide [anyToJson, anyFromJson, PMsg.typeUrl, PMsg.fieldsToJson,
      hello_json_rt, helloOk_json_rt, roomJoin_json_rt, roomJoined_json_rt,
      gameEvent_json_rt, presenceEvent_json_rt, selfMsg_json_rt,
      errorMsg_json_rt, ping_json_rt, pong_json_rt, stateRequest_json_rt,
      stateUpdate_json_rt]

end PartyKit

namespace PartyKit

theorem anyToJson_shape (m : PMsg) :
    ∃ u v, anyToJson m = .obj [("@type", .str u), ("value", v)] := by
  cases m <;> exact ⟨_, _, rfl⟩

/-- The JSON codec inverts itself on every envelope. -/
theorem protoJSONCodec_rt (e : Envelope) :
    ProtoJSONCodec.decode (ProtoJSONCodec.encode e) = some e := by
  cases e with
  | mk v t i rt ts rm f target d =>
      cases d with
      | none => rfl
      | some m =>
          obtain ⟨u, v2, hm⟩ := anyToJson_shape m
          have ha := any_json_rt m
          rw [hm] at ha
          simp only [ProtoJSONCodec.encode, ProtoJSONCodec.decode, hm, ha]

end PartyKit

namespace PartyKit

/-! ### Binary codec round-trip -/

theorem decodeVarint_rt (n : Nat) :
    ∀ rest, decodeVarint (encodeVarint n ++ rest) = some (n, rest) := by
  induction n using Nat.strong_induction_on with
  | _ n ih =>
      intro rest
      by_cases h : n < 128
      · rw [encodeVarint, dif_pos h]
        simp [decodeVarint, h]
      · rw [encodeVarint, dif_neg h]
        have hrec := ih (n / 128) (Nat.div_lt_self (by omega) (by omega)) rest
        have hbig : ¬(n % 128 + 128 < 128) := by omega
        simp only [List.cons_append, decodeVarint, hbig, if_false,
          List.append_eq]
        rw [hrec]
        simp
        omega

theorem decodeChars_rt (cs : List Char) :
    ∀ rest, decodeChars cs.length (encodeChars cs ++ rest) =
      some (cs, rest) := by
  induction cs with
  | nil => intro rest; rfl
  | cons c rest2 ih =>
      intro rest
      have h2 := ih rest
      simp only [encodeChars] at h2 ⊢
      simp only [List.map_cons, List.flatten_cons, List.length_cons,
        decodeChars, List.append_assoc, List.append_eq, decodeVarint_rt,
        h2, Char.ofNat_toNat]

theorem decodeString_rt (s : String) (rest : List Nat) :
    decodeString (encodeString s ++ rest) = some (s, rest) := by
  cases s with
  | mk data =>
      simp only [decodeString, encodeString, List.append_assoc,
        List.append_eq, decodeVarint_rt, decodeChars_rt]

theorem decodeBool_rt (b : Bool) (rest : List Nat) :
    decodeBool (encodeBool b ++ rest) = some (b, rest) := by
  cases b <;> rfl

theorem decodeNats_rt (l : List Nat) :
    ∀ rest, decodeNats l.length ((l.map encodeVarint).flatten ++ rest) =
      some (l, rest) := by
  induction l with
  | nil => intro rest; rfl
  | cons n rest2 ih =>
      intro rest
      have h2 := ih rest
      simp only [List.length_cons, List.map_cons, List.flatten_cons,
        decodeNats, List.append_assoc, List.append_eq, decodeVarint_rt, h2]

theorem decodeBytes_rt (l : List Nat) (rest : List Nat) :
    decodeBytes (encodeBytes l ++ rest) = some (l, rest) := by
  simp only [decodeBytes, encodeBytes, List.append_assoc, List.append_eq,
    decodeVarint_rt, decodeNats_rt]

theorem decodeStrs_rt (l : List String) :
    ∀ rest, decodeStrs l.length ((l.map encodeString).flatten ++ rest) =
      some (l, rest) := by
  induction l with
  | nil => intro rest; rfl
  | cons s rest2 ih =>
      intro rest
      have h2 := ih rest
      simp only [List.length_cons, List.map_cons, List.flatten_cons,
        decodeStrs, List.append_assoc, List.append_eq, decodeString_rt, h2]

theorem decodeStrList_rt (l : List String) (rest : List Nat) :
    decodeStrList (encodeStrList l ++ rest) = some (l, rest) := by
  simp only [decodeStrList, encodeStrList, List.append_assoc,
    List.append_eq, decodeVarint_rt, decodeStrs_rt]

theorem decodePairs_rt (l : List (String × String)) :
    ∀ rest, decodePairs l.length
      ((l.map (fun p => encodeString p.1 ++ encodeString p.2)).flatten ++
        rest) = some (l, rest) := by
  induction l with
  | nil => intro rest; rfl
  | cons p rest2 ih =>
      intro rest
      rcases p with ⟨a, b⟩
      have h2 := ih rest
      simp only [List.length_cons, List.map_cons, List.flatten_cons,
        decodePairs, List.append_assoc, List.append_eq, decodeString_rt, h2]

theorem decodeMeta_rt (l : List (String × String)) (rest : List Nat) :
    decodeMeta (encodeMeta l ++ rest) = some (l, rest) := by
  simp only [decodeMeta, encodeMeta, List.append_assoc, List.append_eq,
    decodeVarint_rt, decodePairs_rt]

theorem decodeOptStr_rt (o : Option String) (rest : List Nat) :
    decodeOptStr (encodeOptStr o ++ rest) = some (o, rest) := by
  cases o with
  | none => rfl
  | some s =>
      simp only [encodeOptStr, List.cons_append, decodeOptStr,
        decodeString_rt]

end PartyKit

namespace PartyKit

theorem clientContext_bin_rt (c : ClientContext) (rest : List Nat) :
    ClientContext.decodeBin (c.encodeBin ++ rest) = some (c, rest) := by
  cases c
  simp only [ClientContext.encodeBin, ClientContext.decodeBin,
    List.append_assoc, List.append_eq, decodeString_rt, decodeVarint_rt,
    decodeStrList_rt, decodeMeta_rt, decodeOptStr_rt,
    Option.bind_eq_bind, Option.some_bind]

theorem decodeOptCtx_rt (o : Option ClientContext) (rest : List Nat) :
    decodeOptCtx (encodeOptCtx o ++ rest) = some (o, rest) := by
  cases o with
  | none => rfl
  | some c =>
      simp only [encodeOptCtx, List.cons_append, decodeOptCtx,
        clientContext_bin_rt]

theorem hello_bin_rt (m : Hello) (rest : List Nat) :
    Hello.decodeBin (m.encodeBin ++ rest) = some (m, rest) := by
  cases m
  simp only [Hello.encodeBin, Hello.decodeBin, List.append_assoc,
    List.append_eq, decodeString_rt, decodeOptStr_rt,
    Option.bind_eq_bind, Option.some_bind]

theorem helloOk_bin_rt (m : HelloOk) (rest : List Nat) :
    HelloOk.decodeBin (m.encodeBin ++ rest) = some (m, rest) := by
  cases m
  simp only [HelloOk.encodeBin, HelloOk.decodeBin, List.append_assoc,
    List.append_eq, decodeVarint_rt, decodeString_rt, decodeOptCtx_rt,
    Option.bind_eq_bind, Option.some_bind]

theorem roomJoin_bin_rt (m : RoomJoin) (rest : List Nat) :
    RoomJoin.decodeBin (m.encodeBin ++ rest) = some (m, rest) := by
  cases m
  rfl

theorem roomInfoP_bin_rt (m : RoomInfoP) (rest : List Nat) :
    RoomInfoP.decodeBin (m.encodeBin ++ rest) = some (m, rest) := by
  cases m
  simp only [RoomInfoP.encodeBin, RoomInfoP.decodeBin, List.append_assoc,
    List.append_eq, decodeString_rt, decodeVarint_rt,
    Option.bind_eq_bind, Option.some_bind]

theorem roomJoined_bin_rt (m : RoomJoined) (rest : List Nat) :
    RoomJoined.decodeBin (m.encodeBin ++ rest) = some (m, rest) := by
  cases m
  simp only [RoomJoined.encodeBin, RoomJoined.decodeBin, roomInfoP_bin_rt,
    Option.bind_eq_bind, Option.some_bind]

theorem gameEvent_bin_rt (m : GameEvent) (rest : List Nat) :
    GameEvent.decodeBin (m.encodeBin ++ rest) = some (m, rest) := by
  cases m
  simp only [GameEvent.encodeBin, GameEvent.decodeBin, List.append_assoc,
    List.append_eq, decodeString_rt, decodeBytes_rt,
    Option.bind_eq_bind, Option.some_bind]

theorem pclient_bin_rt (m : PClient) (rest : List Nat) :
    PClient.decodeBin (m.encodeBin ++ rest) = some (m, rest) := by
  cases m
  simp only [PClient.encodeBin, PClient.decodeBin, List.append_assoc,
    List.append_eq, decodeString_rt, decodeVarint_rt, decodeMeta_rt,
    Option.bind_eq_bind, Option.some_bind]

theorem presenceEvent_bin_rt (m : PresenceEvent) (rest : List Nat) :
    PresenceEvent.decodeBin (m.encodeBin ++ rest) = some (m, rest) := by
  cases m with
  | mk kind cl =>
      simp only [PresenceEvent.encodeBin, PresenceEvent.decodeBin,
        List.append_assoc, List.append_eq, decodeVarint_rt,
        presenceKind_rt, pclient_bin_rt, Option.bind_eq_bind,
        Option.some_bind]

theorem selfMsg_bin_rt (m : SelfMsg) (rest : List Nat) :
    SelfMsg.decodeBin (m.encodeBin ++ rest) = some (m, rest) := by
  cases m
  simp only [SelfMsg.encodeBin, SelfMsg.decodeBin, List.append_assoc,
    List.append_eq, decodeString_rt, decodeVarint_rt, decodeStrList_rt,
    Option.bind_eq_bind, Option.some_bind]

theorem errorMsg_bin_rt (m : ErrorMsg) (rest : List Nat) :
    ErrorMsg.decodeBin (m.encodeBin ++ rest) = some (m, rest) := by
  cases m
  simp only [ErrorMsg.encodeBin, ErrorMsg.decodeBin, List.append_assoc,
    List.append_eq, decodeString_rt, decodeBool_rt, decodeBytes_rt,
    Option.bind_eq_bind, Option.some_bind]

theorem ping_bin_rt (m : Ping) (rest : List Nat) :
    Ping.decodeBin (m.encodeBin ++ rest) = some (m, rest) := by
  cases m
  simp only [Ping.encodeBin, Ping.decodeBin, decodeVarint_rt,
    Option.bind_eq_bind, Option.some_bind]

theorem pong_bin_rt (m : Pong) (rest : List Nat) :
    Pong.decodeBin (m.encodeBin ++ rest) = some (m, rest) := by
  cases m
  simp only [Pong.encodeBin, Pong.decodeBin, decodeVarint_rt,
    Option.bind_eq_bind, Option.some_bind]

theorem stateRequest_bin_rt (m : StateRequest) (rest : List Nat) :
    StateRequest.decodeBin (m.encodeBin ++ rest) = some (m, rest) := by
  cases m
  rfl

theorem stateUpdate_bin_rt (m : StateUpdate) (rest : List Nat) :
    StateUpdate.decodeBin (m.encodeBin ++ rest) = some (m, rest) := by
  cases m with
  | mk kind tick st =>
      simp only [StateUpdate.encodeBin, StateUpdate.decodeBin,
        List.append_assoc, List.append_eq, decodeVarint_rt,
        stateUpdateKind_rt, decodeBytes_rt, Option.bind_eq_bind,
        Option.some_bind]

set_option maxHeartbeats 1000000 in
theorem pmsg_bin_rt (m : PMsg) (rest : List Nat) :
    PMsg.decodeBin (m.encodeBin ++ rest) = some (m, rest) := by
  cases m <;>
    simp only [PMsg.encodeBin, PMsg.decodeBin, List.cons_append,
      hello_bin_rt, helloOk_bin_rt, errorMsg_bin_rt, roomJoin_bin_rt,
      roomJoined_bin_rt, gameEvent_bin_rt, presenceEvent_bin_rt,
      selfMsg_bin_rt, ping_bin_rt, pong_bin_rt, stateRequest_bin_rt,
      stateUpdate_bin_rt, Option.map_some]
  all_goals rfl

theorem decodeOptMsg_rt (o : Option PMsg) (rest : List Nat) :
    decodeOptMsg (encodeOptMsg o ++ rest) = some (o, rest) := by
  cases o with
  | none => rfl
  | some m =>
      simp only [encodeOptMsg, List.cons_append, decodeOptMsg, pmsg_bin_rt]

theorem decodeOptMsg_rt_nil (o : Option PMsg) :
    decodeOptMsg (encodeOptMsg o) = some (o, []) := by
  have := decodeOptMsg_rt o []
  rwa [List.append_nil] at this

/-- The binary codec inverts itself on every envelope. -/
theorem protoBinaryCodec_rt (e : Envelope) :
    ProtoBinaryCodec.decode (ProtoBinaryCodec.encode e) = some e := by
  cases e
  simp only [ProtoBinaryCodec.encode, ProtoBinaryCodec.decode,
    List.append_assoc, List.append_eq, decodeVarint_rt, decodeString_rt,
    decodeOptMsg_rt, decodeOptMsg_rt_nil, Option.bind_eq_bind,
    Option.some_bind]

/-- C9: for every envelope, both the JSON and the binary codec
round-trip losslessly: every field — `t`, `room`, `from`, `to`, and the
packed `data` payload (hence anything unpacked from it) — is
preserved. -/
theorem codec_roundtrip (e : Envelope) :
    ProtoJSONCodec.decode (ProtoJSONCodec.encode e) = some e ∧
    ProtoBinaryCodec.decode (ProtoBinaryCodec.encode e) = some e :=
  ⟨protoJSONCodec_rt e, protoBinaryCodec_rt e⟩

end PartyKit
